import Mathlib

/-!
Verification of the register-gateway core of the RehauNeasmart2.0 Gateway.

This file gives a shallow embedding in Lean 4 of the components the
specification talks about:

* the DPT 9001 codec (`src/dpt_9001.py`),
* the circuit breaker and the Modbus manager (`src/modbus_manager.py`),
* the register store (`src/database.py`),
* the write-through client (`src/modbus_client.py`),
* the zone address mapping (`src/api/zones.py`, `src/const.py`),

followed by theorems settling the specified properties.

Numeric conventions used throughout the embedding:

* Python floats are modelled as rationals (`ℚ`).  Python's `round`
  (nearest, ties-to-even) is modelled by Mathlib's `round` (nearest,
  ties up); the two differ only on exact half-way ties, which none of
  the statements below depend on.
* Python's floor division `//` on integers coincides with Lean's `/`
  on `ℤ` (Euclidean division) for positive divisors.
* Effectful Python methods are modelled as state-passing functions; an
  operation that may raise returns an `Except`/`Option`, and external
  effects (the bus, the network, the wall clock) enter as explicit
  parameters describing their outcome.
-/

/-! ## DPT 9001 codec, from `src/dpt_9001.py` -/

/-- Constant `DPT9001_MIN_VALUE` of `dpt_9001.py`: lower end of the encodable domain. -/
def DPT9001_MIN_VALUE : ℚ := -671088.64

/-- Constant `DPT9001_MAX_VALUE` of `dpt_9001.py`: upper end of the encodable domain. -/
def DPT9001_MAX_VALUE : ℚ := 670760.96

/-- Constant `DPT9001_PRECISION` of `dpt_9001.py`: decimal places for rounding. -/
def DPT9001_PRECISION : ℕ := 2

/-- Python's `round(x, ndigits)` on exact rationals: round to `ndigits` decimal places. -/
def roundTo (x : ℚ) (ndigits : ℕ) : ℚ :=
  ((round (x * 10 ^ ndigits) : ℤ) : ℚ) / 10 ^ ndigits

/-- The mantissa-normalization loop of `pack_dpt9001` (`dpt_9001.py` lines 57-64):

    while signed_mantissa > 2047 or signed_mantissa < -2048:
        signed_mantissa //= 2
        exp += 1
        if exp > 15: raise

modelled with explicit fuel; `pack_dpt9001` calls it with fuel 16, which the
exponent guard makes sufficient (the loop body can run at most 15 times before
`exp > 15` aborts it), so the fuel-exhaustion branch is unreachable from
`pack_dpt9001`.  `none` is the `DPT9001ValidationError` raise. -/
def normalizeMantissa : ℤ → ℕ → ℕ → Option (ℤ × ℕ)
  | m, exp, 0 => if 2047 < m ∨ m < -2048 then none else some (m, exp)
  | m, exp, fuel + 1 =>
    if 2047 < m ∨ m < -2048 then
      if 15 < exp + 1 then none
      else normalizeMantissa (m / 2) (exp + 1) fuel
    else some (m, exp)

/-- Function `pack_dpt9001(value)` of `dpt_9001.py`.  `none` models a raised
`DPT9001ValidationError`.  The NaN/infinity checks of the source have no
counterpart on `ℚ` and the `isinstance` check is subsumed by the type. -/
def pack_dpt9001 (value : ℚ) : Option ℕ :=
  if DPT9001_MAX_VALUE < value ∨ value < DPT9001_MIN_VALUE then none
  else
    match normalizeMantissa (round (value * 100)) 0 16 with
    | none => none
    | some (sm, exp) =>
      -- buffer[0] = (exp & 0x0F) << 3
      let b0 : ℕ := (exp &&& 0x0F) <<< 3
      -- if signed_mantissa < 0: signed_mantissa += 2048; buffer[0] |= 0x80
      let smNat : ℕ := (if sm < 0 then sm + 2048 else sm).toNat
      let b0 : ℕ := if sm < 0 then b0 ||| 0x80 else b0
      -- buffer[0] |= (signed_mantissa >> 8) & 0x07; buffer[1] = signed_mantissa & 0xFF
      let b0 : ℕ := b0 ||| ((smNat >>> 8) &&& 0x07)
      let b1 : ℕ := smNat &&& 0xFF
      -- struct.unpack(">H", buffer)[0]  (big-endian 16-bit)
      some (b0 * 256 + b1)

/-- Function `unpack_dpt9001(value)` of `dpt_9001.py`.  `none` models the raised
`DPT9001ValidationError` for values outside the 16-bit range (the `value < 0`
half of the source's check has no counterpart on `ℕ`). -/
def unpack_dpt9001 (value : ℕ) : Option ℚ :=
  if 0xFFFF < value then none
  else
    let h : ℕ := (value >>> 8) &&& 0xFF
    let l : ℕ := value &&& 0xFF
    let mantissa : ℤ := (((h &&& 0x07) <<< 8) ||| l : ℕ)
    let mantissa : ℤ := if h &&& 0x80 ≠ 0 then mantissa - 2048 else mantissa
    let exponent : ℕ := (h >>> 3) &&& 0x0F
    some (roundTo ((mantissa : ℚ) * (1 / 100) * ((1 <<< exponent : ℕ) : ℚ)) DPT9001_PRECISION)

/-- The exponent field a DPT 9001 encoded word carries, exactly as
`unpack_dpt9001` extracts it: `(h >> 3) & 0x0F` of the high byte. -/
def unpackExponent (value : ℕ) : ℕ :=
  (((value >>> 8) &&& 0xFF) >>> 3) &&& 0x0F

/-! ### Bit-manipulation helpers -/

theorem and_255_eq_mod (x : ℕ) : x &&& 255 = x % 256 := by
  have h := Nat.and_pow_two_sub_one_eq_mod x 8
  norm_num at h
  exact h

theorem and_15_eq_mod (x : ℕ) : x &&& 15 = x % 16 := by
  have h := Nat.and_pow_two_sub_one_eq_mod x 4
  norm_num at h
  exact h

theorem and_7_eq_mod (x : ℕ) : x &&& 7 = x % 8 := by
  have h := Nat.and_pow_two_sub_one_eq_mod x 3
  norm_num at h
  exact h

theorem shiftRight_8_eq_div (x : ℕ) : x >>> 8 = x / 256 := by
  have h := Nat.shiftRight_eq_div_pow x 8
  norm_num at h
  exact h

theorem shiftRight_3_eq_div (x : ℕ) : x >>> 3 = x / 8 := by
  have h := Nat.shiftRight_eq_div_pow x 3
  norm_num at h
  exact h

theorem shiftLeft_3_eq_mul (x : ℕ) : x <<< 3 = x * 8 := by
  have h := Nat.shiftLeft_eq x 3
  norm_num at h
  exact h

theorem shiftLeft_8_eq_mul (x : ℕ) : x <<< 8 = x * 256 := by
  have h := Nat.shiftLeft_eq x 8
  norm_num at h
  exact h

/-- Disjoint bitwise or is addition: the low `k` bits of `a * 2 ^ k` are clear. -/
theorem lor_eq_add_of_lt (a : ℕ) {b k : ℕ} (hb : b < 2 ^ k) :
    (a * 2 ^ k) ||| b = a * 2 ^ k + b := by
  rw [mul_comm a (2 ^ k), ← Nat.mul_add_lt_is_or hb a]

theorem lor_256_eq_add (a : ℕ) {b : ℕ} (hb : b < 256) : (a * 256) ||| b = a * 256 + b := by
  have h := lor_eq_add_of_lt a (k := 8) (lt_of_lt_of_eq hb (by norm_num : (256 : ℕ) = 2 ^ 8))
  norm_num at h
  exact h

theorem lor_8_eq_add (a : ℕ) {b : ℕ} (hb : b < 8) : (a * 8) ||| b = a * 8 + b := by
  have h := lor_eq_add_of_lt a (k := 3) (lt_of_lt_of_eq hb (by norm_num : (8 : ℕ) = 2 ^ 3))
  norm_num at h
  exact h

theorem and_128_eq (x : ℕ) : x &&& 128 = (decide (x / 128 % 2 = 1)).toNat * 128 := by
  have h := Nat.and_two_pow x 7
  rw [Nat.testBit_to_div_mod] at h
  norm_num at h ⊢
  exact h

/-- Rounding to two decimals is the identity on exact multiples of `1/100`. -/
theorem roundTo_two_eq_self {x : ℚ} {m : ℤ} (hx : x * 100 = (m : ℚ)) :
    roundTo x DPT9001_PRECISION = x := by
  unfold roundTo DPT9001_PRECISION
  have h1 : x * 10 ^ (2 : ℕ) = (m : ℚ) := by rw [← hx]; norm_num
  rw [h1, round_intCast, ← hx]
  norm_num

/-- How `unpack_dpt9001` reads a word laid out as sign bit, 4-bit exponent and
11-bit mantissa, and which exponent field it extracts. -/
theorem unpack_dpt9001_layout (s : Bool) (e sm : ℕ) (he : e ≤ 15) (hsm : sm < 2048) :
    unpack_dpt9001 ((if s = true then 32768 else 0) + e * 2048 + sm)
      = some (((if s = true then (sm : ℤ) - 2048 else (sm : ℤ)) : ℚ) * (1 / 100) * 2 ^ e) ∧
    unpackExponent ((if s = true then 32768 else 0) + e * 2048 + sm) = e := by
  cases s with
  | false =>
    simp only [Bool.false_eq_true, if_false, zero_add]
    have h1 : ((e * 2048 + sm) >>> 8) &&& 0xFF = e * 8 + sm / 256 := by
      rw [shiftRight_8_eq_div, and_255_eq_mod]; omega
    have h2 : (e * 2048 + sm) &&& 0xFF = sm % 256 := by
      rw [and_255_eq_mod]; omega
    have h3 : (e * 8 + sm / 256) &&& 7 = sm / 256 := by
      rw [and_7_eq_mod]; omega
    have h4 : (sm / 256) <<< 8 = sm / 256 * 256 := shiftLeft_8_eq_mul _
    have h5 : (sm / 256 * 256) ||| (sm % 256) = sm := by
      rw [lor_256_eq_add _ (by omega)]; omega
    have h6 : (e * 8 + sm / 256) &&& 128 = 0 := by
      rw [and_128_eq]
      have hd : (e * 8 + sm / 256) / 128 % 2 = 0 := by omega
      simp [hd]
    have h7 : ((e * 8 + sm / 256) >>> 3) &&& 0x0F = e := by
      rw [shiftRight_3_eq_div, and_15_eq_mod]; omega
    have h8 : (1 <<< e : ℕ) = 2 ^ e := Nat.one_shiftLeft e
    have hND : ¬ ((0xFFFF : ℕ) < e * 2048 + sm) := by omega
    refine ⟨?_, ?_⟩
    · simp only [unpack_dpt9001, if_neg hND, h1, h2, h3, h4, h5, h6, h7, h8, ne_eq,
        not_true_eq_false, not_false_eq_true, if_false, if_true]
      rw [roundTo_two_eq_self (m := (sm : ℤ) * 2 ^ e) (by push_cast; ring)]
      push_cast
      ring_nf
    · simp only [unpackExponent, h1, h7]
  | true =>
    simp only [if_true]
    have h1 : ((32768 + e * 2048 + sm) >>> 8) &&& 0xFF = 128 + (e * 8 + sm / 256) := by
      rw [shiftRight_8_eq_div, and_255_eq_mod]; omega
    have h2 : (32768 + e * 2048 + sm) &&& 0xFF = sm % 256 := by
      rw [and_255_eq_mod]; omega
    have h3 : (128 + (e * 8 + sm / 256)) &&& 7 = sm / 256 := by
      rw [and_7_eq_mod]; omega
    have h4 : (sm / 256) <<< 8 = sm / 256 * 256 := shiftLeft_8_eq_mul _
    have h5 : (sm / 256 * 256) ||| (sm % 256) = sm := by
      rw [lor_256_eq_add _ (by omega)]; omega
    have h6 : (128 + (e * 8 + sm / 256)) &&& 128 = 128 := by
      rw [and_128_eq]
      have hd : (128 + (e * 8 + sm / 256)) / 128 % 2 = 1 := by omega
      rw [hd]
      norm_num
    have h7 : ((128 + (e * 8 + sm / 256)) >>> 3) &&& 0x0F = e := by
      rw [shiftRight_3_eq_div, and_15_eq_mod]; omega
    have h8 : (1 <<< e : ℕ) = 2 ^ e := Nat.one_shiftLeft e
    have hND : ¬ ((0xFFFF : ℕ) < 32768 + e * 2048 + sm) := by omega
    refine ⟨?_, ?_⟩
    · have hc : (((128 : ℕ) = 0)) = False := by norm_num
      simp only [unpack_dpt9001, if_neg hND, h1, h2, h3, h4, h5, h6, h7, h8, ne_eq, hc,
        not_false_eq_true, if_true]
      rw [roundTo_two_eq_self (m := ((sm : ℤ) - 2048) * 2 ^ e) (by push_cast; ring)]
      congr 1
      push_cast
      ring
    · simp only [unpackExponent, h1, h7]

/-- What `pack_dpt9001` produces once the normalization loop has returned
`(sm, e)`: sign bit, exponent field and biased 11-bit mantissa, assembled
big-endian. -/
theorem pack_dpt9001_eq (v : ℚ) (sm : ℤ) (e : ℕ)
    (hdom : ¬ (DPT9001_MAX_VALUE < v ∨ v < DPT9001_MIN_VALUE))
    (hnorm : normalizeMantissa (round (v * 100)) 0 16 = some (sm, e))
    (hlo : -2048 ≤ sm) (hhi : sm ≤ 2047) (he : e ≤ 15) :
    pack_dpt9001 v
      = some ((if sm < 0 then 32768 else 0) + e * 2048 + (if sm < 0 then sm + 2048 else sm).toNat) := by
  unfold pack_dpt9001
  rw [if_neg hdom, hnorm]
  by_cases hneg : sm < 0
  · simp only [if_pos hneg]
    have hnv : (sm + 2048).toNat < 2048 := by omega
    have b1 : (e &&& 15) = e := by rw [and_15_eq_mod]; omega
    have b2 : e <<< 3 = e * 8 := shiftLeft_3_eq_mul e
    have b3 : (e * 8) ||| 128 = 128 + e * 8 := by
      rw [Nat.lor_comm]
      have h := lor_eq_add_of_lt 1 (b := e * 8) (k := 7) (by omega)
      norm_num at h
      exact h
    have b4 : (sm + 2048).toNat >>> 8 = (sm + 2048).toNat / 256 := shiftRight_8_eq_div _
    have b5 : ((sm + 2048).toNat / 256) &&& 7 = (sm + 2048).toNat / 256 := by
      rw [and_7_eq_mod]; omega
    have b6 : (128 + e * 8) ||| ((sm + 2048).toNat / 256) = 128 + e * 8 + (sm + 2048).toNat / 256 := by
      have hrepr : 128 + e * 8 = (16 + e) * 8 := by ring
      rw [hrepr, lor_8_eq_add _ (by omega : (sm + 2048).toNat / 256 < 8)]
    have b7 : (sm + 2048).toNat &&& 255 = (sm + 2048).toNat % 256 := and_255_eq_mod _
    rw [b1, b2, b3, b4, b5, b6, b7]
    congr 1
    omega
  · simp only [if_neg hneg]
    have hnv : sm.toNat < 2048 := by omega
    have b1 : (e &&& 15) = e := by rw [and_15_eq_mod]; omega
    have b2 : e <<< 3 = e * 8 := shiftLeft_3_eq_mul e
    have b4 : sm.toNat >>> 8 = sm.toNat / 256 := shiftRight_8_eq_div _
    have b5 : (sm.toNat / 256) &&& 7 = sm.toNat / 256 := by
      rw [and_7_eq_mod]; omega
    have b6 : (e * 8) ||| (sm.toNat / 256) = e * 8 + sm.toNat / 256 :=
      lor_8_eq_add e (by omega)
    have b7 : sm.toNat &&& 255 = sm.toNat % 256 := and_255_eq_mod _
    rw [b1, b2, b4, b5, b6, b7]
    congr 1
    omega

/-- Structural invariant of the normalization loop: the returned mantissa is in
the 11-bit signed range, the exponent either did not move or stayed within 15,
and the input mantissa equals the output mantissa shifted back, plus a
nonnegative remainder lost to the floor divisions. -/
theorem normalizeMantissa_spec :
    ∀ (fuel : ℕ) (m : ℤ) (e : ℕ) (m' : ℤ) (e' : ℕ),
      normalizeMantissa m e fuel = some (m', e') →
      -2048 ≤ m' ∧ m' ≤ 2047 ∧ (e' = e ∨ e' ≤ 15) ∧
      ∃ (k : ℕ) (r : ℤ), e' = e + k ∧ 0 ≤ r ∧ r < 2 ^ k ∧ m = m' * 2 ^ k + r := by
  intro fuel
  induction fuel with
  | zero =>
    intro m e m' e' h
    simp only [normalizeMantissa] at h
    by_cases hc : 2047 < m ∨ m < -2048
    · rw [if_pos hc] at h
      exact absurd h (by simp)
    · rw [if_neg hc] at h
      obtain ⟨h1, h2⟩ := Prod.mk.injEq .. ▸ Option.some.inj h
      push_neg at hc
      subst h1
      subst h2
      exact ⟨hc.2, hc.1, Or.inl rfl, 0, 0, by simp, le_refl 0, by norm_num, by ring⟩
  | succ f ih =>
    intro m e m' e' h
    simp only [normalizeMantissa] at h
    by_cases hc : 2047 < m ∨ m < -2048
    · rw [if_pos hc] at h
      by_cases hg : 15 < e + 1
      · rw [if_pos hg] at h
        exact absurd h (by simp)
      · rw [if_neg hg] at h
        obtain ⟨h1, h2, h3, k, r, hk, hr0, hrlt, hm⟩ := ih (m / 2) (e + 1) m' e' h
        have hmod : 0 ≤ m % 2 ∧ m % 2 < 2 := by omega
        refine ⟨h1, h2, Or.inr (by omega), k + 1, 2 * r + m % 2, by omega, by omega, ?_, ?_⟩
        · rw [pow_succ]
          linarith [hrlt, hmod.2]
        · have hgoal : m' * 2 ^ (k + 1) + (2 * r + m % 2) = 2 * (m' * 2 ^ k + r) + m % 2 := by
            ring
          rw [hgoal, ← hm]
          omega
    · rw [if_neg hc] at h
      obtain ⟨h1, h2⟩ := Prod.mk.injEq .. ▸ Option.some.inj h
      push_neg at hc
      subst h1
      subst h2
      exact ⟨hc.2, hc.1, Or.inl rfl, 0, 0, by simp, le_refl 0, by norm_num, by ring⟩

/-- The normalization loop succeeds whenever the starting mantissa fits in the
range it can shift down to within the available exponent budget. -/
theorem normalizeMantissa_total :
    ∀ (f : ℕ) (m : ℤ) (e : ℕ), e + f = 15 →
      -2048 * 2 ^ f ≤ m → m ≤ 2047 * 2 ^ f →
      ∃ p, normalizeMantissa m e (f + 1) = some p := by
  intro f
  induction f with
  | zero =>
    intro m e he hlo hhi
    norm_num at hlo hhi
    simp only [normalizeMantissa]
    rw [if_neg (by omega)]
    exact ⟨(m, e), rfl⟩
  | succ f ih =>
    intro m e he hlo hhi
    simp only [normalizeMantissa]
    by_cases hc : 2047 < m ∨ m < -2048
    · rw [if_pos hc, if_neg (by omega : ¬ 15 < e + 1)]
      apply ih (m / 2) (e + 1) (by omega)
      · have h1 : (-2048 : ℤ) * 2 ^ f * 2 ≤ m := by
          rw [show (-2048 : ℤ) * 2 ^ f * 2 = -2048 * 2 ^ (f + 1) by ring]
          exact hlo
        have := (Int.le_ediv_iff_mul_le (by norm_num : (0 : ℤ) < 2)).mpr h1
        exact this
      · have h1 : m ≤ 2047 * 2 ^ f * 2 := by
          rw [show (2047 : ℤ) * 2 ^ f * 2 = 2047 * 2 ^ (f + 1) by ring]
          exact hhi
        have h2 := Int.ediv_le_ediv (by norm_num : (0 : ℤ) < 2) h1
        rwa [Int.mul_ediv_cancel _ (by norm_num : (2 : ℤ) ≠ 0)] at h2
    · rw [if_neg hc]
      exact ⟨(m, e), rfl⟩

/-- Bounds on the rounded scaled mantissa for an in-domain value. -/
theorem round_scaled_bounds {v : ℚ} (h1 : DPT9001_MIN_VALUE ≤ v) (h2 : v ≤ DPT9001_MAX_VALUE) :
    -2048 * 2 ^ 15 ≤ round (v * 100) ∧ round (v * 100) ≤ 2047 * 2 ^ 15 := by
  have habs := abs_sub_round (v * 100)
  rw [abs_le] at habs
  unfold DPT9001_MIN_VALUE at h1
  unfold DPT9001_MAX_VALUE at h2
  norm_num at h1 h2
  constructor
  · have hq : ((-67108865 : ℤ) : ℚ) < (round (v * 100) : ℚ) := by push_cast; linarith
    have hz : (-67108865 : ℤ) < round (v * 100) := by exact_mod_cast hq
    omega
  · have hq : (round (v * 100) : ℚ) < ((67076097 : ℤ) : ℚ) := by push_cast; linarith
    have hz : round (v * 100) < (67076097 : ℤ) := by exact_mod_cast hq
    omega

/-- Numeric core of the round-trip bound: if rounding `v * 100` gives
`sm * 2 ^ e + r` with `0 ≤ r < 2 ^ e`, the decoded value `sm * 2 ^ e / 100`
is within `(2 ^ e - 1) / 100 + 1 / 200` of `v`. -/
theorem roundtrip_error_core (v : ℚ) (sm r : ℤ) (e : ℕ)
    (hm : round (v * 100) = sm * 2 ^ e + r) (hr0 : 0 ≤ r) (hrlt : r < 2 ^ e) :
    |(sm : ℚ) * (1 / 100) * 2 ^ e - v| ≤ ((2 : ℚ) ^ e - 1) / 100 + 1 / 200 := by
  have habs := abs_sub_round (v * 100)
  rw [abs_le] at habs
  have hmq : ((round (v * 100) : ℤ) : ℚ) = (sm : ℚ) * 2 ^ e + (r : ℚ) := by
    rw [hm]; push_cast; ring
  have hrq1 : (0 : ℚ) ≤ (r : ℚ) := by exact_mod_cast hr0
  have hrq2 : (r : ℚ) + 1 ≤ (2 : ℚ) ^ e := by
    have h := Int.lt_iff_add_one_le.mp hrlt
    have : ((r + 1 : ℤ) : ℚ) ≤ (((2 : ℤ) ^ e : ℤ) : ℚ) := by exact_mod_cast h
    push_cast at this
    linarith
  have h2e : (1 : ℚ) ≤ (2 : ℚ) ^ e := by
    have h := Nat.one_le_two_pow (n := e)
    exact_mod_cast h
  have key : (sm : ℚ) * (1 / 100) * 2 ^ e - v
      = (((round (v * 100) : ℤ) : ℚ) - v * 100 - (r : ℚ)) / 100 := by
    rw [hmq]; ring
  rw [key, abs_le]
  constructor
  · linarith [habs.1, habs.2]
  · linarith [habs.1, habs.2]

/-- C1 (amended): for every `v` in the DPT 9001 domain the encoder succeeds and
the round-trip error is at most the full resolution at the chosen exponent
minus half the base resolution, `(2 ^ e - 1) / 100 + 1 / 200 = 0.01·2^e − 0.005`
(not half the resolution `0.005·2^e`: the normalization loop truncates with
floor division instead of rounding). -/
theorem C1_amended_roundtrip (v : ℚ)
    (h1 : DPT9001_MIN_VALUE ≤ v) (h2 : v ≤ DPT9001_MAX_VALUE) :
    ∃ raw w, pack_dpt9001 v = some raw ∧ unpack_dpt9001 raw = some w ∧
      |w - v| ≤ ((2 : ℚ) ^ unpackExponent raw - 1) / 100 + 1 / 200 := by
  obtain ⟨hlo, hhi⟩ := round_scaled_bounds h1 h2
  obtain ⟨⟨sm, e⟩, hnorm⟩ := normalizeMantissa_total 15 (round (v * 100)) 0 (by norm_num) hlo hhi
  have hnorm16 : normalizeMantissa (round (v * 100)) 0 16 = some (sm, e) := hnorm
  obtain ⟨hm1, hm2, he', k, r, hk, hr0, hrlt, hm⟩ :=
    normalizeMantissa_spec 16 (round (v * 100)) 0 sm e hnorm16
  have hek : e = k := by omega
  subst hek
  have he15 : e ≤ 15 := by omega
  have hdom : ¬ (DPT9001_MAX_VALUE < v ∨ v < DPT9001_MIN_VALUE) := by
    push_neg
    exact ⟨h2, h1⟩
  have hpack := pack_dpt9001_eq v sm e hdom hnorm16 hm1 hm2 he15
  have hmk : round (v * 100) = sm * 2 ^ e + r := by rw [hm]
  by_cases hneg : sm < 0
  · simp only [if_pos hneg] at hpack
    have hsm2048 : (sm + 2048).toNat < 2048 := by omega
    obtain ⟨hun, hexp⟩ := unpack_dpt9001_layout true e (sm + 2048).toNat he15 hsm2048
    simp only [if_true] at hun hexp
    have hcast : ((((sm + 2048).toNat : ℤ)) : ℚ) - 2048 = ((sm : ℤ) : ℚ) := by
      rw [Int.toNat_of_nonneg (by omega : (0 : ℤ) ≤ sm + 2048)]
      push_cast
      ring
    rw [hcast] at hun
    refine ⟨32768 + e * 2048 + (sm + 2048).toNat, _, hpack, hun, ?_⟩
    rw [hexp]
    exact roundtrip_error_core v sm r e hmk hr0 hrlt
  · simp only [if_neg hneg] at hpack
    have hsm2048 : sm.toNat < 2048 := by omega
    obtain ⟨hun, hexp⟩ := unpack_dpt9001_layout false e sm.toNat he15 hsm2048
    simp only [Bool.false_eq_true, if_false] at hun hexp
    have hcast : (((sm.toNat : ℤ)) : ℚ) = ((sm : ℤ) : ℚ) := by
      rw [Int.toNat_of_nonneg (by omega : (0 : ℤ) ≤ sm)]
    rw [hcast] at hun
    refine ⟨0 + e * 2048 + sm.toNat, _, hpack, hun, ?_⟩
    rw [hexp]
    exact roundtrip_error_core v sm r e hmk hr0 hrlt

/-- Witness for `C1_amended_roundtrip` at the concrete in-domain value 21.5. -/
theorem C1_amended_roundtrip_witness :
    DPT9001_MIN_VALUE ≤ (43 / 2 : ℚ) ∧ (43 / 2 : ℚ) ≤ DPT9001_MAX_VALUE ∧
    (∃ raw w, pack_dpt9001 (43 / 2) = some raw ∧ unpack_dpt9001 raw = some w ∧
      |w - 43 / 2| ≤ ((2 : ℚ) ^ unpackExponent raw - 1) / 100 + 1 / 200) :=
  ⟨by norm_num [DPT9001_MIN_VALUE], by norm_num [DPT9001_MAX_VALUE],
    C1_amended_roundtrip (43 / 2) (by norm_num [DPT9001_MIN_VALUE])
      (by norm_num [DPT9001_MAX_VALUE])⟩

/-- C1 as stated is false: at v = 40.99 the encoder chooses exponent 2
(encoded word 5120), the round trip returns 40.96, and the error 0.03 exceeds
half the resolution at that exponent, 0.005·2² = 0.02. -/
theorem C1_counterexample :
    pack_dpt9001 (4099 / 100) = some 5120 ∧
    unpack_dpt9001 5120 = some (4096 / 100) ∧
    unpackExponent 5120 = 2 ∧
    ¬ (|(4096 / 100 : ℚ) - 4099 / 100| ≤ 5 / 1000 * 2 ^ unpackExponent 5120) := by
  have hr : round ((4099 / 100 : ℚ) * 100) = 4099 := by norm_num [round_eq]
  have hnorm : normalizeMantissa (round ((4099 / 100 : ℚ) * 100)) 0 16 = some (1024, 2) := by
    rw [hr]
    decide
  have hdom : ¬ (DPT9001_MAX_VALUE < (4099 / 100 : ℚ) ∨ (4099 / 100 : ℚ) < DPT9001_MIN_VALUE) := by
    norm_num [DPT9001_MAX_VALUE, DPT9001_MIN_VALUE]
  have hpack := pack_dpt9001_eq (4099 / 100) 1024 2 hdom hnorm (by norm_num) (by norm_num)
    (by norm_num)
  norm_num at hpack
  obtain ⟨hun, hexp⟩ := unpack_dpt9001_layout false 2 1024 (by norm_num) (by norm_num)
  norm_num at hun hexp
  have habs : |(4096 / 100 : ℚ) - 4099 / 100| = 3 / 100 := by
    rw [show (4096 / 100 : ℚ) - 4099 / 100 = -(3 / 100) by norm_num, abs_neg,
      abs_of_pos (by norm_num : (0 : ℚ) < 3 / 100)]
  refine ⟨hpack, ?_, hexp, ?_⟩
  · rw [hun]
    norm_num
  · rw [hexp, habs]
    norm_num

/-! ## Circuit breaker, from `src/modbus_manager.py` (lines 30-136) -/

/-- Enum `CircuitState` of `modbus_manager.py` (`opened` is the source's `OPEN`;
`open` is a Lean keyword). -/
inductive CircuitState where
  | closed
  | opened
  | half_open
deriving DecidableEq

/-- Dataclass `CircuitBreakerConfig` of `modbus_manager.py`, with its defaults. -/
structure CircuitBreakerConfig where
  failure_threshold : ℕ := 5
  recovery_timeout : ℚ := 60
  half_open_max_calls : ℕ := 3
deriving DecidableEq

/-- State of class `CircuitBreaker` (`__init__`, lines 68-74); wall-clock
timestamps (`datetime.now()`) are modelled as rationals passed in by callers. -/
structure CircuitBreaker where
  config : CircuitBreakerConfig
  state : CircuitState := .closed
  failure_count : ℕ := 0
  last_failure_time : Option ℚ := none
  half_open_calls : ℕ := 0
deriving DecidableEq

/-- Method `CircuitBreaker._should_attempt_reset` (lines 97-103), with
`datetime.now()` passed in as `now`. -/
def CircuitBreaker._should_attempt_reset (cb : CircuitBreaker) (now : ℚ) : Bool :=
  match cb.last_failure_time with
  | none => true
  | some t => decide (now - t > cb.config.recovery_timeout)

/-- Method `CircuitBreaker._on_success` (lines 105-114). -/
def CircuitBreaker._on_success (cb : CircuitBreaker) : CircuitBreaker :=
  if cb.state = .half_open then
    let cb := { cb with half_open_calls := cb.half_open_calls + 1 }
    if cb.half_open_calls ≥ cb.config.half_open_max_calls then
      { cb with state := .closed, failure_count := 0 }
    else cb
  else { cb with failure_count := 0 }

/-- Method `CircuitBreaker._on_failure` (lines 116-128). -/
def CircuitBreaker._on_failure (cb : CircuitBreaker) (now : ℚ) : CircuitBreaker :=
  let cb := { cb with failure_count := cb.failure_count + 1, last_failure_time := some now }
  if cb.state = .half_open then
    { cb with state := .opened }
  else if cb.failure_count ≥ cb.config.failure_threshold then
    { cb with state := .opened }
  else cb

/-- Result of `CircuitBreaker.call`: the operation's result, a raised
`CircuitBreakerOpen` (the operation was never invoked), or the operation's own
error, re-raised after `_on_failure` ran. -/
inductive CallResult (ε α : Type) where
  | ok (a : α)
  | circuitOpen
  | opError (e : ε)
deriving DecidableEq

/-- Method `CircuitBreaker.call(func)` (lines 76-95).  The wrapped operation is
modelled as a state transformer on `σ` that either returns a value or raises an
error; the rejection branch returns `.circuitOpen` without running it. -/
def CircuitBreaker.call {σ ε α : Type} (cb : CircuitBreaker) (now : ℚ)
    (func : σ → σ × Except ε α) (s : σ) : CircuitBreaker × σ × CallResult ε α :=
  if cb.state = .opened then
    if cb._should_attempt_reset now then
      let cb := { cb with state := .half_open, half_open_calls := 0 }
      match func s with
      | (s', .ok a) => (cb._on_success, s', .ok a)
      | (s', .error e) => (cb._on_failure now, s', .opError e)
    else (cb, s, .circuitOpen)
  else
    match func s with
    | (s', .ok a) => (cb._on_success, s', .ok a)
    | (s', .error e) => (cb._on_failure now, s', .opError e)

/-- A `call` whose wrapped operation carries no state and simply succeeds or
fails, as used when stating the life-cycle properties. -/
def CircuitBreaker.callB (cb : CircuitBreaker) (now : ℚ) (ok : Bool) :
    CircuitBreaker × CallResult Unit Unit :=
  let r := cb.call now (fun (u : Unit) => (u, if ok then Except.ok () else Except.error ())) ()
  (r.1, r.2.2)

/-- A sequence of no-state calls, each given by its wall-clock time and whether
the wrapped operation succeeds. -/
def CircuitBreaker.applyCalls (cb : CircuitBreaker) (calls : List (ℚ × Bool)) : CircuitBreaker :=
  calls.foldl (fun c p => (c.callB p.1 p.2).1) cb

theorem call_rejected {σ ε α : Type} (cb : CircuitBreaker) (now : ℚ)
    (func : σ → σ × Except ε α) (s : σ) (h : cb.state = .opened)
    (h2 : cb._should_attempt_reset now = false) :
    cb.call now func s = (cb, s, .circuitOpen) := by
  unfold CircuitBreaker.call
  rw [if_pos h, h2]
  simp

theorem callB_not_open (cb : CircuitBreaker) (now : ℚ) (ok : Bool) (h : cb.state ≠ .opened) :
    cb.callB now ok
      = (if ok then cb._on_success else cb._on_failure now,
         if ok then .ok () else .opError ()) := by
  unfold CircuitBreaker.callB CircuitBreaker.call
  rw [if_neg h]
  cases ok <;> simp

theorem callB_open_admitted (cb : CircuitBreaker) (now : ℚ) (ok : Bool)
    (h : cb.state = .opened) (h2 : cb._should_attempt_reset now = true) :
    cb.callB now ok
      = (if ok then ({ cb with state := .half_open, half_open_calls := 0 } :
            CircuitBreaker)._on_success
         else ({ cb with state := .half_open, half_open_calls := 0 } :
            CircuitBreaker)._on_failure now,
         if ok then .ok () else .opError ()) := by
  unfold CircuitBreaker.callB CircuitBreaker.call
  rw [if_pos h, h2]
  cases ok <;> simp

theorem on_failure_closed_low (cb : CircuitBreaker) (now : ℚ) (h : cb.state = .closed)
    (hlow : cb.failure_count + 1 < cb.config.failure_threshold) :
    cb._on_failure now
      = { cb with failure_count := cb.failure_count + 1, last_failure_time := some now } := by
  unfold CircuitBreaker._on_failure
  dsimp only
  rw [h]
  rw [if_neg (by simp)]
  rw [if_neg (by omega : ¬ cb.failure_count + 1 ≥ cb.config.failure_threshold)]

theorem on_failure_closed_high (cb : CircuitBreaker) (now : ℚ) (h : cb.state = .closed)
    (hhi : cb.failure_count + 1 ≥ cb.config.failure_threshold) :
    cb._on_failure now
      = { cb with
          state := .opened
          failure_count := cb.failure_count + 1
          last_failure_time := some now } := by
  unfold CircuitBreaker._on_failure
  dsimp only
  rw [h]
  rw [if_neg (by simp)]
  rw [if_pos hhi]

theorem on_failure_half_open (cb : CircuitBreaker) (now : ℚ) (h : cb.state = .half_open) :
    cb._on_failure now
      = { cb with
          state := .opened
          failure_count := cb.failure_count + 1
          last_failure_time := some now } := by
  unfold CircuitBreaker._on_failure
  dsimp only
  rw [h]
  rw [if_pos rfl]

theorem on_success_half_open_low (cb : CircuitBreaker) (h : cb.state = .half_open)
    (hlow : cb.half_open_calls + 1 < cb.config.half_open_max_calls) :
    cb._on_success = { cb with half_open_calls := cb.half_open_calls + 1 } := by
  unfold CircuitBreaker._on_success
  dsimp only
  rw [if_pos h]
  rw [if_neg (by omega : ¬ cb.half_open_calls + 1 ≥ cb.config.half_open_max_calls)]

theorem on_success_half_open_high (cb : CircuitBreaker) (h : cb.state = .half_open)
    (hhi : cb.half_open_calls + 1 ≥ cb.config.half_open_max_calls) :
    cb._on_success
      = { cb with
          state := .closed
          failure_count := 0
          half_open_calls := cb.half_open_calls + 1 } := by
  unfold CircuitBreaker._on_success
  dsimp only
  rw [if_pos h]
  rw [if_pos hhi]

/-- Failing calls from Closed leave the breaker Closed while the running
failure count stays below the threshold. -/
theorem applyCalls_fail_closed :
    ∀ (ts : List ℚ) (cb : CircuitBreaker), cb.state = .closed →
      cb.failure_count + ts.length < cb.config.failure_threshold →
      (cb.applyCalls (ts.map fun t => (t, false))).state = .closed ∧
      (cb.applyCalls (ts.map fun t => (t, false))).failure_count
        = cb.failure_count + ts.length ∧
      (cb.applyCalls (ts.map fun t => (t, false))).config = cb.config := by
  intro ts
  induction ts with
  | nil =>
    intro cb h1 h2
    simp [CircuitBreaker.applyCalls, h1]
  | cons t ts ih =>
    intro cb h1 h2
    have hstep := callB_not_open cb t false (by rw [h1]; simp)
    simp only [if_false, Bool.false_eq_true] at hstep
    have hof := on_failure_closed_low cb t h1 (by simp at h2; omega)
    have hunf : cb.applyCalls (((t :: ts)).map fun t => (t, false))
        = (cb._on_failure t).applyCalls (ts.map fun t => (t, false)) := by
      simp only [List.map_cons, CircuitBreaker.applyCalls, List.foldl_cons]
      rw [show (cb.callB t false).1 = cb._on_failure t by rw [hstep]]
    rw [hunf, hof]
    obtain ⟨ha, hb, hc⟩ := ih
      { cb with failure_count := cb.failure_count + 1, last_failure_time := some t }
      (by simp [h1]) (by dsimp only; simp only [List.length_cons] at h2; omega)
    refine ⟨ha, ?_, hc⟩
    rw [hb]
    dsimp only
    simp only [List.length_cons]
    omega
    

/-- Consecutive successful calls in HalfOpen close the breaker exactly when the
configured number of trial successes is reached, resetting the failure count. -/
theorem applyCalls_success_closes :
    ∀ (ls : List ℚ) (cb : CircuitBreaker), cb.state = .half_open →
      cb.half_open_calls + ls.length = cb.config.half_open_max_calls → ls ≠ [] →
      (cb.applyCalls (ls.map fun t => (t, true))).state = .closed ∧
      (cb.applyCalls (ls.map fun t => (t, true))).failure_count = 0 := by
  intro ls
  induction ls with
  | nil =>
    intro cb h1 h2 h3
    exact absurd rfl h3
  | cons t ts ih =>
    intro cb h1 h2 _
    have hstep := callB_not_open cb t true (by rw [h1]; simp)
    simp at hstep
    have hunf : cb.applyCalls ((t :: ts).map fun t => (t, true))
        = (cb._on_success).applyCalls (ts.map fun t => (t, true)) := by
      simp only [List.map_cons, CircuitBreaker.applyCalls, List.foldl_cons]
      rw [show (cb.callB t true).1 = cb._on_success by rw [hstep]]
    rw [hunf]
    rcases ts with _ | ⟨t2, ts2⟩
    · have hhi : cb.half_open_calls + 1 ≥ cb.config.half_open_max_calls := by
        simp only [List.length_cons, List.length_nil] at h2
        omega
      rw [on_success_half_open_high cb h1 hhi]
      simp [CircuitBreaker.applyCalls]
    · have hlow : cb.half_open_calls + 1 < cb.config.half_open_max_calls := by
        simp only [List.length_cons] at h2
        omega
      rw [on_success_half_open_low cb h1 hlow]
      exact ih { cb with half_open_calls := cb.half_open_calls + 1 }
        (by simp [h1])
        (by dsimp only; simp only [List.length_cons] at h2 ⊢; omega)
        (by simp)

/-- C5: starting from Closed, `failure_threshold` consecutive failures open the
breaker; while the recovery timeout has not elapsed since the last failure
every call is rejected with `CircuitBreakerOpen` without invoking the wrapped
operation and without changing any state; once strictly more than
`recovery_timeout` has elapsed a call is admitted again (HalfOpen trial), and
`half_open_max_calls` consecutive successes from there return the breaker to
Closed with `failure_count` reset to 0. -/
theorem C5_circuit_breaker_life_cycle (cfg : CircuitBreakerConfig)
    (ts : List ℚ) (tN : ℚ) (hlen : (ts ++ [tN]).length = cfg.failure_threshold) :
    let cb1 := ({ config := cfg } : CircuitBreaker).applyCalls
      ((ts ++ [tN]).map fun t => (t, false))
    cb1.state = .opened ∧
    cb1.failure_count = cfg.failure_threshold ∧
    cb1.last_failure_time = some tN ∧
    (∀ (σ ε α : Type) (func : σ → σ × Except ε α) (s : σ) (t : ℚ),
      t - tN ≤ cfg.recovery_timeout → cb1.call t func s = (cb1, s, .circuitOpen)) ∧
    (∀ (t' : ℚ) (ok : Bool), t' - tN > cfg.recovery_timeout →
      (cb1.callB t' ok).2 = (if ok then .ok () else .opError ())) ∧
    (∀ (t' : ℚ) (rest : List ℚ), t' - tN > cfg.recovery_timeout →
      (t' :: rest).length = cfg.half_open_max_calls →
      (cb1.applyCalls ((t' :: rest).map fun t => (t, true))).state = .closed ∧
      (cb1.applyCalls ((t' :: rest).map fun t => (t, true))).failure_count = 0) := by
  intro cb1
  simp only [List.length_append, List.length_cons, List.length_nil] at hlen
  obtain ⟨hmidS, hmidF, hmidC⟩ := applyCalls_fail_closed ts ({ config := cfg }) rfl
    (by dsimp only; omega)
  set cbMid := ({ config := cfg } : CircuitBreaker).applyCalls (ts.map fun t => (t, false))
    with hMidDef
  have hmidF0 : cbMid.failure_count = ts.length := by
    rw [hmidF]
    dsimp only
    omega
  have hmidC0 : cbMid.config = cfg := hmidC
  have hsplit : cb1 = (cbMid.callB tN false).1 := by
    show (({ config := cfg } : CircuitBreaker).applyCalls
      ((ts ++ [tN]).map fun t => (t, false))) = (cbMid.callB tN false).1
    rw [hMidDef]
    simp only [CircuitBreaker.applyCalls, List.map_append, List.foldl_append, List.map_cons,
      List.map_nil, List.foldl_cons, List.foldl_nil]
  have hstep := callB_not_open cbMid tN false (by rw [hmidS]; simp)
  simp at hstep
  have hOF := on_failure_closed_high cbMid tN hmidS (by rw [hmidF0, hmidC0]; omega)
  have hcb1 : cb1 = { cbMid with
      state := .opened
      failure_count := cbMid.failure_count + 1
      last_failure_time := some tN } := by
    rw [hsplit, show (cbMid.callB tN false).1 = cbMid._on_failure tN by rw [hstep], hOF]
  have hS : cb1.state = .opened := by rw [hcb1]
  have hF : cb1.failure_count = cfg.failure_threshold := by
    rw [hcb1]
    dsimp only
    omega
  have hT : cb1.last_failure_time = some tN := by rw [hcb1]
  have hC : cb1.config = cfg := by
    rw [hcb1]
    exact hmidC0
  refine ⟨hS, hF, hT, ?_, ?_, ?_⟩
  · intro σ ε α func s t hle
    apply call_rejected _ _ _ _ hS
    simp only [CircuitBreaker._should_attempt_reset, hT, hC]
    exact decide_eq_false (not_lt.mpr hle)
  · intro t' ok hgt
    have hreset : cb1._should_attempt_reset t' = true := by
      simp only [CircuitBreaker._should_attempt_reset, hT, hC]
      exact decide_eq_true hgt
    rw [callB_open_admitted cb1 t' ok hS hreset]
  · intro t' rest hgt hlen2
    have hreset : cb1._should_attempt_reset t' = true := by
      simp only [CircuitBreaker._should_attempt_reset, hT, hC]
      exact decide_eq_true hgt
    have hadm := callB_open_admitted cb1 t' true hS hreset
    simp at hadm
    have hcbH := callB_not_open
      { cb1 with state := .half_open, half_open_calls := 0 } t' true (by simp)
    simp at hcbH
    have hswap : cb1.applyCalls ((t' :: rest).map fun t => (t, true))
        = ({ cb1 with state := .half_open, half_open_calls := 0 } :
            CircuitBreaker).applyCalls ((t' :: rest).map fun t => (t, true)) := by
      simp only [List.map_cons, CircuitBreaker.applyCalls, List.foldl_cons]
      rw [show (cb1.callB t' true).1
          = ({ cb1 with state := .half_open, half_open_calls := 0 } :
              CircuitBreaker)._on_success by rw [hadm],
        show (({ cb1 with state := .half_open, half_open_calls := 0 } :
              CircuitBreaker).callB t' true).1
          = ({ cb1 with state := .half_open, half_open_calls := 0 } :
              CircuitBreaker)._on_success by rw [hcbH]]
    rw [hswap]
    apply applyCalls_success_closes (t' :: rest)
      { cb1 with state := .half_open, half_open_calls := 0 } (by simp)
    · dsimp only
      rw [hC]
      omega
    · simp

/-- Witness for `C5_circuit_breaker_life_cycle` with the default configuration
(threshold 5, timeout 60 s, 3 trial successes) and failures at times 0..4. -/
theorem C5_circuit_breaker_life_cycle_witness :
    (([0, 1, 2, 3] ++ [4] : List ℚ).length
        = ({} : CircuitBreakerConfig).failure_threshold) ∧
    (let cb1 := ({ config := {} } : CircuitBreaker).applyCalls
        (((([0, 1, 2, 3] : List ℚ)) ++ [4]).map fun t => (t, false))
     cb1.state = .opened ∧
     cb1.failure_count = ({} : CircuitBreakerConfig).failure_threshold ∧
     cb1.last_failure_time = some 4 ∧
     (∀ (σ ε α : Type) (func : σ → σ × Except ε α) (s : σ) (t : ℚ),
       t - 4 ≤ ({} : CircuitBreakerConfig).recovery_timeout →
       cb1.call t func s = (cb1, s, .circuitOpen)) ∧
     (∀ (t' : ℚ) (ok : Bool), t' - 4 > ({} : CircuitBreakerConfig).recovery_timeout →
       (cb1.callB t' ok).2 = (if ok then .ok () else .opError ())) ∧
     (∀ (t' : ℚ) (rest : List ℚ), t' - 4 > ({} : CircuitBreakerConfig).recovery_timeout →
       (t' :: rest).length = ({} : CircuitBreakerConfig).half_open_max_calls →
       (cb1.applyCalls ((t' :: rest).map fun t => (t, true))).state = .closed ∧
       (cb1.applyCalls ((t' :: rest).map fun t => (t, true))).failure_count = 0)) :=
  ⟨rfl, C5_circuit_breaker_life_cycle {} [0, 1, 2, 3] 4 rfl⟩

/-- C6 (amended): a failure of a call executed while the breaker is HalfOpen
reopens it immediately, but the failure counter is incremented by one (and the
failure time recorded), not left unchanged: `_on_failure` increments
`failure_count` unconditionally before checking the state. -/
theorem C6_amended_half_open_failure (cb : CircuitBreaker) (now : ℚ)
    (h : cb.state = .half_open) :
    (cb.callB now false).1.state = .opened ∧
    (cb.callB now false).1.failure_count = cb.failure_count + 1 ∧
    (cb.callB now false).1.last_failure_time = some now ∧
    (cb.callB now false).2 = .opError () := by
  have hstep := callB_not_open cb now false (by rw [h]; simp)
  simp at hstep
  refine ⟨?_, ?_, ?_, by rw [hstep]⟩ <;>
    rw [show (cb.callB now false).1 = cb._on_failure now by rw [hstep],
      on_failure_half_open cb now h]

/-- Witness for `C6_amended_half_open_failure` on a fresh HalfOpen breaker. -/
theorem C6_amended_half_open_failure_witness :
    (({ config := {}, state := .half_open } : CircuitBreaker).state = .half_open) ∧
    ((({ config := {}, state := .half_open } : CircuitBreaker).callB 0 false).1.state
        = .opened ∧
     (({ config := {}, state := .half_open } : CircuitBreaker).callB 0 false).1.failure_count
        = ({ config := {}, state := .half_open } : CircuitBreaker).failure_count + 1 ∧
     (({ config := {}, state := .half_open } : CircuitBreaker).callB 0 false).1.last_failure_time
        = some 0 ∧
     (({ config := {}, state := .half_open } : CircuitBreaker).callB 0 false).2
        = .opError ()) :=
  ⟨rfl, C6_amended_half_open_failure _ 0 rfl⟩

/-- C6 as stated is false: on a HalfOpen breaker with `failure_count = 0`, a
failing call does reopen the breaker, but `failure_count` becomes 1 instead of
staying unchanged. -/
theorem C6_counterexample :
    (({ config := {}, state := .half_open } : CircuitBreaker).callB 0 false).1.state
      = .opened ∧
    (({ config := {}, state := .half_open } : CircuitBreaker).callB 0 false).1.failure_count
      = 1 ∧
    ¬ ((({ config := {}, state := .half_open } : CircuitBreaker).callB 0 false).1.failure_count
      = ({ config := {}, state := .half_open } : CircuitBreaker).failure_count) :=
  ⟨rfl, rfl, by decide⟩

/-! ## Register store, from `src/database.py` -/

/-- Exceptions of `database.py` (`DatabaseConnectionError`, `DatabaseOperationError`). -/
inductive DatabaseError where
  | connectionError
  | operationError
deriving DecidableEq

/-- State of class `DatabaseManager`.  The durable SqliteDict is a partial map
address → value (`db.get(addr, default)` returns the default on a missing key),
next to the `InMemoryFallback` replica (`_data` is a `defaultdict(int)`, also
read back with default 0) and its dirty flag.  `connection_healthy` is
`_connection_healthy`.  `_execute_with_retry` is modelled by its outcome: when
the connection is healthy the operation runs on the durable map; otherwise the
retries are exhausted and the caller falls back to the in-memory replica when
`enable_fallback` is set, or raises `DatabaseOperationError`.  The rate-limited
health check and the timed fallback resync are not modelled. -/
structure DatabaseManager where
  db : ℕ → Option ℕ
  connection_healthy : Bool
  enable_fallback : Bool
  fallback : ℕ → Option ℕ
  fallback_dirty : Bool

/-- The initialization loop of `DatabaseManager._create_initial_database`:
`for i in range(0, n): db[i] = 0`. -/
def initRegisters : ℕ → (ℕ → Option ℕ)
  | 0 => fun _ => none
  | n + 1 => fun a => if a = n then some 0 else initRegisters n a

/-- A freshly created store: `_create_initial_database` wrote 65536 zero
registers and `_connect` succeeded. -/
def DatabaseManager.fresh (enable_fallback : Bool := true) : DatabaseManager :=
  { db := initRegisters 65536
    connection_healthy := true
    enable_fallback := enable_fallback
    fallback := fun _ => none
    fallback_dirty := false }

/-- The write loop shared by `_set_range` and `InMemoryFallback.set_range`:
`for i, value in enumerate(values): f[start + i] = value`. -/
def setRange (f : ℕ → Option ℕ) (start : ℕ) : List ℕ → (ℕ → Option ℕ)
  | [] => f
  | v :: rest => setRange (fun a => if a = start then some v else f a) (start + 1) rest

/-- The read comprehension shared by `_get_range` and
`InMemoryFallback.get_range`: `[f.get(start + i, 0) for i in range(count)]`. -/
def getRange (f : ℕ → Option ℕ) (start count : ℕ) : List ℕ :=
  (List.range count).map fun i => (f (start + i)).getD 0

/-- Method `DatabaseManager.get_register` (lines 263-274). -/
def DatabaseManager.get_register (m : DatabaseManager) (address : ℕ) (default : ℕ := 0) :
    Except DatabaseError ℕ :=
  if m.connection_healthy then .ok ((m.db address).getD default)
  else if m.enable_fallback then .ok ((m.fallback address).getD default)
  else .error .operationError

/-- Method `DatabaseManager.set_register` (lines 276-285). -/
def DatabaseManager.set_register (m : DatabaseManager) (address value : ℕ) :
    Except DatabaseError DatabaseManager :=
  if m.connection_healthy then
    .ok { m with db := fun a => if a = address then some value else m.db a }
  else if m.enable_fallback then
    .ok { m with
          fallback := fun a => if a = address then some value else m.fallback a
          fallback_dirty := true }
  else .error .operationError

/-- Method `DatabaseManager.get_registers` (lines 287-298). -/
def DatabaseManager.get_registers (m : DatabaseManager) (start_address count : ℕ) :
    Except DatabaseError (List ℕ) :=
  if m.connection_healthy then .ok (getRange m.db start_address count)
  else if m.enable_fallback then .ok (getRange m.fallback start_address count)
  else .error .operationError

/-- Method `DatabaseManager.set_registers` (lines 300-310). -/
def DatabaseManager.set_registers (m : DatabaseManager) (start_address : ℕ) (values : List ℕ) :
    Except DatabaseError DatabaseManager :=
  if m.connection_healthy then .ok { m with db := setRange m.db start_address values }
  else if m.enable_fallback then
    .ok { m with
          fallback := setRange m.fallback start_address values
          fallback_dirty := true }
  else .error .operationError

theorem initRegisters_lt : ∀ (n a : ℕ), a < n → initRegisters n a = some 0 := by
  intro n
  induction n with
  | zero => intro a ha; omega
  | succ n ih =>
    intro a ha
    simp only [initRegisters]
    by_cases h : a = n
    · simp [h]
    · simp only [h, if_false]
      exact ih a (by omega)

/-- C7: on a freshly created store every address in the 16-bit space reads 0,
and a set followed by a get returns exactly the written value. -/
theorem C7_register_store_semantics (addr v : ℕ) (haddr : addr ≤ 65535) (_hv : v ≤ 65535) :
    (DatabaseManager.fresh true).get_register addr = .ok 0 ∧
    ∃ m', (DatabaseManager.fresh true).set_register addr v = .ok m' ∧
      m'.get_register addr = .ok v := by
  constructor
  · unfold DatabaseManager.get_register DatabaseManager.fresh
    simp only [if_true]
    rw [initRegisters_lt 65536 addr (by omega)]
    rfl
  · refine ⟨_, rfl, ?_⟩
    unfold DatabaseManager.get_register
    simp [DatabaseManager.fresh]

/-- Witness for `C7_register_store_semantics` at address 1301, value 42. -/
theorem C7_register_store_semantics_witness :
    (1301 ≤ 65535 ∧ 42 ≤ 65535) ∧
    ((DatabaseManager.fresh true).get_register 1301 = .ok 0 ∧
     ∃ m', (DatabaseManager.fresh true).set_register 1301 42 = .ok m' ∧
       m'.get_register 1301 = .ok 42) :=
  ⟨⟨by norm_num, by norm_num⟩,
    C7_register_store_semantics 1301 42 (by norm_num) (by norm_num)⟩

/-! ## Modbus manager, from `src/modbus_manager.py` (lines 183-462), and the
constants it uses from `src/const.py` -/

/-- Constant `ZONE_BASE_ID_MULTIPLIER` of `const.py`. -/
def ZONE_BASE_ID_MULTIPLIER : ℕ := 1200

/-- Constant `ZONE_ID_MULTIPLIER` of `const.py`. -/
def ZONE_ID_MULTIPLIER : ℕ := 100

/-- Constant `ZONE_SETPOINT_ADDR_OFFSET` of `const.py`. -/
def ZONE_SETPOINT_ADDR_OFFSET : ℕ := 1

/-- Constant `ZONE_TEMP_ADDR_OFFSET` of `const.py`. -/
def ZONE_TEMP_ADDR_OFFSET : ℕ := 2

/-- Constant `ZONE_RH_ADDR_OFFSET` of `const.py`. -/
def ZONE_RH_ADDR_OFFSET : ℕ := 10

/-- Constant `GLOBAL_OP_MODE_ADDR` of `const.py`. -/
def GLOBAL_OP_MODE_ADDR : ℕ := 1

/-- Constant `GLOBAL_OP_STATE_ADDR` of `const.py`. -/
def GLOBAL_OP_STATE_ADDR : ℕ := 2

/-- The gateway-side state a `ModbusManager` owns besides its circuit breaker:
the database manager, the in-memory values of the `ThreadSafeDataBlock`
backing the primary slave (`super()` of pymodbus), and whether
`_initialize_context` succeeded (`self._context is not None`).  The pymodbus
server plumbing (contexts, identity, the dummy secondary block) carries no
register semantics and is not modelled. -/
structure GatewayState where
  db_manager : DatabaseManager
  mem_block : ℕ → ℕ
  context_initialized : Bool

/-- State of class `ModbusManager`. -/
structure ModbusManager where
  slave_id : ℕ
  gw : GatewayState
  circuit_breaker : CircuitBreaker

/-- Exceptions a manager operation can surface: `ModbusReadError`,
`ModbusWriteError`, a re-raised `CircuitBreakerOpen`, or a database exception
escaping `set_registers`/`get_registers`. -/
inductive GatewayError where
  | readError
  | writeError
  | circuitOpenRaised
  | dbError
deriving DecidableEq

/-- The in-memory update loop of `ModbusSequentialDataBlock.setValues`:
`values[address + i] = value` for each value. -/
def setValuesMem (mem : ℕ → ℕ) (address : ℕ) : List ℕ → (ℕ → ℕ)
  | [] => mem
  | v :: rest => setValuesMem (fun a => if a = address then v else mem a) (address + 1) rest

/-- Method `ThreadSafeDataBlock.setValues` (`modbus_manager.py` lines 155-169):
update the in-memory block, then persist to the database, logging and
swallowing database errors ("Continue operation even if database fails"). -/
def ThreadSafeDataBlock_setValues (gw : GatewayState) (address : ℕ) (values : List ℕ) :
    GatewayState :=
  let gw2 : GatewayState := { gw with mem_block := setValuesMem gw.mem_block address values }
  match gw2.db_manager.set_registers address values with
  | .ok dbm => { gw2 with db_manager := dbm }
  | .error _ => gw2

/-- The `_read` closure of `ModbusManager.read_registers` (lines 335-349): fail
if the context is missing, otherwise return what `slave_context.getValues`
produced; `busRead` is that outcome (an exception becomes `ModbusReadError`). -/
def ModbusManager._read (gw : GatewayState) (busRead : Except Unit (List ℕ)) :
    GatewayState × Except GatewayError (List ℕ) :=
  if ¬ gw.context_initialized then (gw, .error .readError)
  else
    match busRead with
    | .ok values => (gw, .ok values)
    | .error _ => (gw, .error .readError)

/-- The `_write` closure of `ModbusManager.write_registers` (lines 366-384):
fail if the context is missing; otherwise run the data block's `setValues`
(which persists on success), raising `ModbusWriteError` when it raises.
`busWrite` says whether `setValues` succeeds. -/
def ModbusManager._write (gw : GatewayState) (address : ℕ) (values : List ℕ)
    (busWrite : Bool) : GatewayState × Except GatewayError Unit :=
  if ¬ gw.context_initialized then (gw, .error .writeError)
  else if busWrite then (ThreadSafeDataBlock_setValues gw address values, .ok ())
  else (gw, .error .writeError)

/-- Method `ModbusManager._is_zone_register` (lines 257-276). -/
def ModbusManager._is_zone_register (address : ℕ) : Bool :=
  if ¬ (100 ≤ address ∧ address < 4900) then false
  else
    let offset := address % ZONE_ID_MULTIPLIER
    let base_addr? : Option ℕ :=
      if offset = 0 then some address
      else if offset = ZONE_SETPOINT_ADDR_OFFSET ∨ offset = ZONE_TEMP_ADDR_OFFSET
          ∨ offset = ZONE_RH_ADDR_OFFSET then some (address - offset)
      else none
    match base_addr? with
    | none => false
    | some base_addr =>
      let zone_id_part := (base_addr % ZONE_BASE_ID_MULTIPLIER) / ZONE_ID_MULTIPLIER
      let base_id_part := base_addr / ZONE_BASE_ID_MULTIPLIER
      decide ((1 ≤ zone_id_part ∧ zone_id_part ≤ 12) ∧ base_id_part < 4)

/-- The `is_invalid` classification inside
`ModbusManager._validate_and_filter_read_data` (lines 285-312).  On register
contents (16-bit) `unpack_dpt9001` never returns `none`; the `none` arm mirrors
the source's `unpacked is None` disjunct. -/
def readInvalid (address original_value : ℕ) : Bool :=
  if address = GLOBAL_OP_STATE_ADDR ∨ address = GLOBAL_OP_MODE_ADDR then
    decide (original_value = 0)
  else if ModbusManager._is_zone_register address then
    let offset := address % ZONE_ID_MULTIPLIER
    if offset = 0 then decide (original_value = 0)
    else if offset = ZONE_SETPOINT_ADDR_OFFSET then
      match unpack_dpt9001 original_value with
      | none => true
      | some unpacked => decide (¬ (5 ≤ unpacked ∧ unpacked ≤ 40))
    else if offset = ZONE_TEMP_ADDR_OFFSET then
      match unpack_dpt9001 original_value with
      | none => true
      | some unpacked => decide (unpacked = 0)
    else if offset = ZONE_RH_ADDR_OFFSET then decide (original_value = 0)
    else false
  else false

/-- Method `ModbusManager._validate_and_filter_read_data` (lines 278-331):
lists that are empty or longer than one register pass through; a flagged
single value is replaced by the cached one when a cached value exists and
differs (returning the original when they are equal is the same list); cache
retrieval errors fall back to the original values. -/
def ModbusManager._validate_and_filter_read_data (gw : GatewayState) (address : ℕ)
    (values : List ℕ) : List ℕ :=
  match values with
  | [original_value] =>
    if ¬ readInvalid address original_value then values
    else
      match gw.db_manager.get_registers address 1 with
      | .ok (cached_value :: _) =>
        if cached_value ≠ original_value then [cached_value] else values
      | .ok [] => values
      | .error _ => values
  | _ => values

/-- Method `ModbusManager.read_registers` (lines 333-362). -/
def ModbusManager.read_registers (m : ModbusManager) (now : ℚ) (address count : ℕ)
    (update_db : Bool) (busRead : Except Unit (List ℕ)) :
    ModbusManager × Except GatewayError (List ℕ) :=
  match m.circuit_breaker.call now (fun gw => ModbusManager._read gw busRead) m.gw with
  | (cb', gw', .ok values) =>
    let validated := ModbusManager._validate_and_filter_read_data gw' address values
    if update_db then
      match gw'.db_manager.set_registers address validated with
      | .ok dbm =>
        ({ m with circuit_breaker := cb', gw := { gw' with db_manager := dbm } },
          .ok validated)
      | .error _ => ({ m with circuit_breaker := cb', gw := gw' }, .error .dbError)
    else ({ m with circuit_breaker := cb', gw := gw' }, .ok validated)
  | (cb', gw', .circuitOpen) =>
    match gw'.db_manager.get_registers address count with
    | .ok cached => ({ m with circuit_breaker := cb', gw := gw' }, .ok cached)
    | .error _ => ({ m with circuit_breaker := cb', gw := gw' }, .error .dbError)
  | (cb', gw', .opError e) => ({ m with circuit_breaker := cb', gw := gw' }, .error e)

/-- Method `ModbusManager.write_registers` (lines 364-392): on
`CircuitBreakerOpen` the values are stored in the database and the exception
re-raised; any other failure of the wrapped write propagates as is. -/
def ModbusManager.write_registers (m : ModbusManager) (now : ℚ) (address : ℕ)
    (values : List ℕ) (busWrite : Bool) : ModbusManager × Except GatewayError Unit :=
  match m.circuit_breaker.call now
      (fun gw => ModbusManager._write gw address values busWrite) m.gw with
  | (cb', gw', .ok _) => ({ m with circuit_breaker := cb', gw := gw' }, .ok ())
  | (cb', gw', .circuitOpen) =>
    match gw'.db_manager.set_registers address values with
    | .ok dbm =>
      ({ m with circuit_breaker := cb', gw := { gw' with db_manager := dbm } },
        .error .circuitOpenRaised)
    | .error _ => ({ m with circuit_breaker := cb', gw := gw' }, .error .dbError)
  | (cb', gw', .opError e) => ({ m with circuit_breaker := cb', gw := gw' }, .error e)

theorem call_not_open {σ ε α : Type} (cb : CircuitBreaker) (now : ℚ)
    (func : σ → σ × Except ε α) (s : σ) (h : cb.state ≠ .opened) :
    cb.call now func s
      = match func s with
        | (s', .ok a) => (cb._on_success, s', .ok a)
        | (s', .error e) => (cb._on_failure now, s', .opError e) := by
  unfold CircuitBreaker.call
  rw [if_neg h]

theorem setRange_lookup_lt :
    ∀ (values : List ℕ) (f : ℕ → Option ℕ) (start a : ℕ), a < start →
      setRange f start values a = f a := by
  intro values
  induction values with
  | nil => intro f start a _; rfl
  | cons v rest ih =>
    intro f start a ha
    simp only [setRange]
    rw [ih _ (start + 1) a (by omega)]
    simp only [show a ≠ start by omega, if_false]

theorem setRange_lookup :
    ∀ (values : List ℕ) (f : ℕ → Option ℕ) (start i : ℕ), i < values.length →
      setRange f start values (start + i) = some (values.getD i 0) := by
  intro values
  induction values with
  | nil => intro f start i hi; simp at hi
  | cons v rest ih =>
    intro f start i hi
    simp only [setRange]
    match i with
    | 0 =>
      rw [show start + 0 = start by omega]
      rw [setRange_lookup_lt rest _ (start + 1) start (by omega)]
      simp
    | j + 1 =>
      rw [show start + (j + 1) = (start + 1) + j by omega]
      rw [ih _ (start + 1) j (by simp at hi; omega)]
      simp

theorem set_registers_healthy (dbm : DatabaseManager) (address : ℕ) (values : List ℕ)
    (hdb : dbm.connection_healthy = true) :
    dbm.set_registers address values
      = .ok { dbm with db := setRange dbm.db address values } := by
  unfold DatabaseManager.set_registers
  rw [hdb]
  simp

theorem get_registers_healthy (dbm : DatabaseManager) (address count : ℕ)
    (hdb : dbm.connection_healthy = true) :
    dbm.get_registers address count = .ok (getRange dbm.db address count) := by
  unfold DatabaseManager.get_registers
  rw [hdb]
  simp

theorem tsdb_setValues_eq (gw : GatewayState) (address : ℕ) (values : List ℕ)
    (hdb : gw.db_manager.connection_healthy = true) :
    ThreadSafeDataBlock_setValues gw address values
      = { gw with
          mem_block := setValuesMem gw.mem_block address values
          db_manager := { gw.db_manager with
            db := setRange gw.db_manager.db address values } } := by
  unfold ThreadSafeDataBlock_setValues
  dsimp only
  rw [set_registers_healthy gw.db_manager address values hdb]

theorem write_registers_bus_ok (m : ModbusManager) (now : ℚ) (address : ℕ)
    (values : List ℕ) (hno : m.circuit_breaker.state ≠ .opened)
    (hctx : m.gw.context_initialized = true)
    (hdb : m.gw.db_manager.connection_healthy = true) :
    m.write_registers now address values true
      = ({ m with
           circuit_breaker := m.circuit_breaker._on_success
           gw := { m.gw with
             mem_block := setValuesMem m.gw.mem_block address values
             db_manager := { m.gw.db_manager with
               db := setRange m.gw.db_manager.db address values } } }, .ok ()) := by
  have hw : ModbusManager._write m.gw address values true
      = (ThreadSafeDataBlock_setValues m.gw address values, .ok ()) := by
    unfold ModbusManager._write
    rw [hctx]
    simp
  unfold ModbusManager.write_registers
  rw [call_not_open _ _ _ _ hno, hw, tsdb_setValues_eq m.gw address values hdb]

theorem write_registers_bus_fail (m : ModbusManager) (now : ℚ) (address : ℕ)
    (values : List ℕ) (hno : m.circuit_breaker.state ≠ .opened)
    (hctx : m.gw.context_initialized = true) :
    m.write_registers now address values false
      = ({ m with circuit_breaker := m.circuit_breaker._on_failure now },
         .error .writeError) := by
  have hw : ModbusManager._write m.gw address values false = (m.gw, .error .writeError) := by
    unfold ModbusManager._write
    rw [hctx]
    simp
  unfold ModbusManager.write_registers
  rw [call_not_open _ _ _ _ hno, hw]

theorem write_registers_circuit_open (m : ModbusManager) (now : ℚ) (address : ℕ)
    (values : List ℕ) (busWrite : Bool) (hopen : m.circuit_breaker.state = .opened)
    (hreset : m.circuit_breaker._should_attempt_reset now = false)
    (hdb : m.gw.db_manager.connection_healthy = true) :
    m.write_registers now address values busWrite
      = ({ m with gw := { m.gw with
            db_manager := { m.gw.db_manager with
              db := setRange m.gw.db_manager.db address values } } },
         .error .circuitOpenRaised) := by
  unfold ModbusManager.write_registers
  rw [call_rejected _ _ _ _ hopen hreset]
  dsimp only
  rw [set_registers_healthy m.gw.db_manager address values hdb]

/-- A healthy database whose registers all read 0, for concrete evaluations. -/
def testDb : DatabaseManager :=
  { db := fun _ => some 0
    connection_healthy := true
    enable_fallback := true
    fallback := fun _ => none
    fallback_dirty := false }

/-- A manager over `testDb` with an initialized context and a fresh breaker. -/
def testManager : ModbusManager :=
  { slave_id := 240
    gw := { db_manager := testDb, mem_block := fun _ => 0, context_initialized := true }
    circuit_breaker := { config := {} } }

/-- C2 (amended): `write_registers` persists the intended values to the
register store when the wrapped bus write succeeds, and when the circuit
rejects the call (in which case `CircuitBreakerOpen` is re-raised only after
persisting); but when the bus write itself fails, the failure is re-raised
WITHOUT persisting: only the breaker's failure bookkeeping changes, the
register store and data block are untouched. -/
theorem C2_amended_write_persistence (m : ModbusManager) (now : ℚ) (address : ℕ)
    (values : List ℕ)
    (hctx : m.gw.context_initialized = true)
    (hdb : m.gw.db_manager.connection_healthy = true) :
    (m.circuit_breaker.state ≠ .opened →
      (m.write_registers now address values true).2 = .ok () ∧
      ∀ i, i < values.length →
        (m.write_registers now address values true).1.gw.db_manager.db (address + i)
          = some (values.getD i 0)) ∧
    (m.circuit_breaker.state = .opened →
      m.circuit_breaker._should_attempt_reset now = false →
      ∀ busWrite : Bool,
        (m.write_registers now address values busWrite).2 = .error .circuitOpenRaised ∧
        ∀ i, i < values.length →
          (m.write_registers now address values busWrite).1.gw.db_manager.db (address + i)
            = some (values.getD i 0)) ∧
    (m.circuit_breaker.state ≠ .opened →
      (m.write_registers now address values false).2 = .error .writeError ∧
      (m.write_registers now address values false).1.gw = m.gw) := by
  refine ⟨?_, ?_, ?_⟩
  · intro hno
    rw [write_registers_bus_ok m now address values hno hctx hdb]
    exact ⟨rfl, fun i hi => setRange_lookup values m.gw.db_manager.db address i hi⟩
  · intro hopen hreset busWrite
    rw [write_registers_circuit_open m now address values busWrite hopen hreset hdb]
    exact ⟨rfl, fun i hi => setRange_lookup values m.gw.db_manager.db address i hi⟩
  · intro hno
    rw [write_registers_bus_fail m now address values hno hctx]
    exact ⟨rfl, rfl⟩

/-- Witness for `C2_amended_write_persistence` on the concrete test manager,
writing value 7 to address 10. -/
theorem C2_amended_write_persistence_witness :
    (testManager.gw.context_initialized = true ∧
      testManager.gw.db_manager.connection_healthy = true) ∧
    ((testManager.circuit_breaker.state ≠ .opened →
      (testManager.write_registers 0 10 [7] true).2 = .ok () ∧
      ∀ i, i < [7].length →
        (testManager.write_registers 0 10 [7] true).1.gw.db_manager.db (10 + i)
          = some ([7].getD i 0)) ∧
    (testManager.circuit_breaker.state = .opened →
      testManager.circuit_breaker._should_attempt_reset 0 = false →
      ∀ busWrite : Bool,
        (testManager.write_registers 0 10 [7] busWrite).2 = .error .circuitOpenRaised ∧
        ∀ i, i < [7].length →
          (testManager.write_registers 0 10 [7] busWrite).1.gw.db_manager.db (10 + i)
            = some ([7].getD i 0)) ∧
    (testManager.circuit_breaker.state ≠ .opened →
      (testManager.write_registers 0 10 [7] false).2 = .error .writeError ∧
      (testManager.write_registers 0 10 [7] false).1.gw = testManager.gw)) :=
  ⟨⟨rfl, rfl⟩, C2_amended_write_persistence testManager 0 10 [7] rfl rfl⟩

/-- C2 as stated is false: on the test manager (breaker Closed, store healthy,
register 10 holding 0), a failing bus write of value 7 to address 10 re-raises
the write failure but the intended value is NOT persisted to the register
store, which still reads 0. -/
theorem C2_counterexample :
    (testManager.write_registers 0 10 [7] false).2 = .error .writeError ∧
    (testManager.write_registers 0 10 [7] false).1.gw.db_manager.db 10 = some 0 ∧
    ¬ ((testManager.write_registers 0 10 [7] false).1.gw.db_manager.db 10 = some 7) := by
  refine ⟨rfl, rfl, by decide⟩

/-- C4: while the breaker rejects with `CircuitBreakerOpen` (Open, recovery
timeout not elapsed), `read_registers` does not invoke the bus operation (the
result is independent of the bus outcome and the manager is unchanged) and
returns the last persisted values for the requested range from the register
store, without raising. -/
theorem C4_read_circuit_open (m : ModbusManager) (now : ℚ) (address count : ℕ)
    (update_db : Bool) (busRead : Except Unit (List ℕ))
    (hopen : m.circuit_breaker.state = .opened)
    (hreset : m.circuit_breaker._should_attempt_reset now = false)
    (hdb : m.gw.db_manager.connection_healthy = true) :
    m.read_registers now address count update_db busRead
      = (m, .ok (getRange m.gw.db_manager.db address count)) ∧
    ∀ i, i < count →
      (getRange m.gw.db_manager.db address count)[i]?
        = some ((m.gw.db_manager.db (address + i)).getD 0) := by
  constructor
  · unfold ModbusManager.read_registers
    rw [call_rejected _ _ _ _ hopen hreset]
    dsimp only
    rw [get_registers_healthy m.gw.db_manager address count hdb]
  · intro i hi
    simp [getRange, List.getElem?_map, List.getElem?_range, hi]

/-- A manager whose breaker is Open since time 0. -/
def testManagerOpen : ModbusManager :=
  { testManager with
    circuit_breaker :=
      { config := {}, state := .opened, failure_count := 5
        last_failure_time := some 0, half_open_calls := 0 } }

/-- Witness for `C4_read_circuit_open`: the open-circuit read at time 30
(before the 60 s recovery timeout) serves the cached range. -/
theorem C4_read_circuit_open_witness :
    (testManagerOpen.circuit_breaker.state = .opened ∧
     testManagerOpen.circuit_breaker._should_attempt_reset 30 = false ∧
     testManagerOpen.gw.db_manager.connection_healthy = true) ∧
    (testManagerOpen.read_registers 30 1301 2 true (.error ())
        = (testManagerOpen, .ok (getRange testManagerOpen.gw.db_manager.db 1301 2)) ∧
     ∀ i, i < 2 →
       (getRange testManagerOpen.gw.db_manager.db 1301 2)[i]?
         = some ((testManagerOpen.gw.db_manager.db (1301 + i)).getD 0)) := by
  have hreset : testManagerOpen.circuit_breaker._should_attempt_reset 30 = false := by
    unfold CircuitBreaker._should_attempt_reset testManagerOpen
    simp
    norm_num
  exact ⟨⟨rfl, hreset, rfl⟩,
    C4_read_circuit_open testManagerOpen 30 1301 2 true (.error ()) rfl hreset rfl⟩

theorem zone_register_ge_100 (address : ℕ)
    (h : ModbusManager._is_zone_register address = true) : 100 ≤ address := by
  unfold ModbusManager._is_zone_register at h
  by_cases hc : 100 ≤ address ∧ address < 4900
  · exact hc.1
  · rw [if_pos hc] at h
    simp at h

theorem unpack_dpt9001_isSome (v : ℕ) (hv : v ≤ 65535) :
    ∃ u, unpack_dpt9001 v = some u := by
  unfold unpack_dpt9001
  rw [if_neg (by omega : ¬ (0xFFFF : ℕ) < v)]
  exact ⟨_, rfl⟩

/-- Evaluation of `read_registers` on a successful bus read with an admitting
breaker and a healthy store. -/
theorem read_registers_bus_ok (m : ModbusManager) (now : ℚ) (address count : ℕ)
    (update_db : Bool) (values : List ℕ)
    (hno : m.circuit_breaker.state ≠ .opened)
    (hctx : m.gw.context_initialized = true)
    (hdb : m.gw.db_manager.connection_healthy = true) :
    m.read_registers now address count update_db (.ok values)
      = ({ m with
           circuit_breaker := m.circuit_breaker._on_success
           gw := if update_db then
             { m.gw with db_manager := { m.gw.db_manager with
                 db := setRange m.gw.db_manager.db address
                   (ModbusManager._validate_and_filter_read_data m.gw address values) } }
             else m.gw },
         .ok (ModbusManager._validate_and_filter_read_data m.gw address values)) := by
  have hr : ModbusManager._read m.gw (.ok values) = (m.gw, .ok values) := by
    unfold ModbusManager._read
    rw [hctx]
    simp
  unfold ModbusManager.read_registers
  rw [call_not_open _ _ _ _ hno, hr]
  dsimp only
  cases update_db with
  | false => simp
  | true =>
    rw [set_registers_healthy _ _ _ hdb]
    simp

/-- What the validator does to a single-register read over a healthy store:
a flagged value is replaced by the last persisted one (returning the original
when the cache agrees is the same list), an accepted value passes through. -/
theorem validate_single (gw : GatewayState) (address v : ℕ)
    (hdb : gw.db_manager.connection_healthy = true) :
    ModbusManager._validate_and_filter_read_data gw address [v]
      = if readInvalid address v then [(gw.db_manager.db address).getD 0] else [v] := by
  unfold ModbusManager._validate_and_filter_read_data
  dsimp only
  by_cases hinv : readInvalid address v
  · rw [if_neg (show ¬ ¬ readInvalid address v = true by simp [hinv]), if_pos hinv]
    rw [get_registers_healthy _ _ _ hdb]
    have hget : getRange gw.db_manager.db address 1 = [(gw.db_manager.db address).getD 0] := by
      unfold getRange
      rw [show List.range 1 = [0] from rfl]
      simp
    rw [hget]
    dsimp only
    by_cases he : (gw.db_manager.db address).getD 0 = v
    · simp [he]
    · simp [he]
  · rw [if_pos (show ¬ readInvalid address v = true by simp [hinv]), if_neg hinv]

theorem readInvalid_global (address v : ℕ)
    (h : address = GLOBAL_OP_MODE_ADDR ∨ address = GLOBAL_OP_STATE_ADDR) :
    (readInvalid address v = true ↔ v = 0) := by
  unfold readInvalid
  rw [if_pos (by tauto)]
  simp

theorem readInvalid_zone_state (address v : ℕ)
    (hz : ModbusManager._is_zone_register address = true)
    (hoff : address % ZONE_ID_MULTIPLIER = 0) :
    (readInvalid address v = true ↔ v = 0) := by
  have h100 := zone_register_ge_100 address hz
  unfold readInvalid
  rw [if_neg (by unfold GLOBAL_OP_STATE_ADDR GLOBAL_OP_MODE_ADDR; omega)]
  rw [hz]
  simp only [if_true]
  rw [hoff]
  simp

theorem readInvalid_zone_setpoint (address v : ℕ)
    (hz : ModbusManager._is_zone_register address = true)
    (hoff : address % ZONE_ID_MULTIPLIER = ZONE_SETPOINT_ADDR_OFFSET)
    (u : ℚ) (hu : unpack_dpt9001 v = some u) :
    (readInvalid address v = true ↔ ¬ (5 ≤ u ∧ u ≤ 40)) := by
  have h100 := zone_register_ge_100 address hz
  unfold readInvalid
  rw [if_neg (by unfold GLOBAL_OP_STATE_ADDR GLOBAL_OP_MODE_ADDR; omega)]
  rw [hz]
  simp only [if_true]
  rw [hoff]
  unfold ZONE_SETPOINT_ADDR_OFFSET ZONE_TEMP_ADDR_OFFSET ZONE_RH_ADDR_OFFSET
  simp only [show (1 : ℕ) ≠ 0 by omega, if_false, if_pos rfl]
  rw [hu]
  simp
  constructor
  · rintro (h | h) h5
    · exact absurd h5 (not_le.mpr h)
    · exact h
  · intro h
    by_cases h5 : 5 ≤ u
    · exact Or.inr (h h5)
    · exact Or.inl (not_le.mp h5)

theorem readInvalid_zone_temperature (address v : ℕ)
    (hz : ModbusManager._is_zone_register address = true)
    (hoff : address % ZONE_ID_MULTIPLIER = ZONE_TEMP_ADDR_OFFSET)
    (u : ℚ) (hu : unpack_dpt9001 v = some u) :
    (readInvalid address v = true ↔ u = 0) := by
  have h100 := zone_register_ge_100 address hz
  unfold readInvalid
  rw [if_neg (by unfold GLOBAL_OP_STATE_ADDR GLOBAL_OP_MODE_ADDR; omega)]
  rw [hz]
  simp only [if_true]
  rw [hoff]
  unfold ZONE_SETPOINT_ADDR_OFFSET ZONE_TEMP_ADDR_OFFSET ZONE_RH_ADDR_OFFSET
  simp only [show (2 : ℕ) ≠ 0 by omega, show (2 : ℕ) ≠ 1 by omega, if_false, if_pos rfl]
  rw [hu]
  simp

theorem readInvalid_zone_humidity (address v : ℕ)
    (hz : ModbusManager._is_zone_register address = true)
    (hoff : address % ZONE_ID_MULTIPLIER = ZONE_RH_ADDR_OFFSET) :
    (readInvalid address v = true ↔ v = 0) := by
  have h100 := zone_register_ge_100 address hz
  unfold readInvalid
  rw [if_neg (by unfold GLOBAL_OP_STATE_ADDR GLOBAL_OP_MODE_ADDR; omega)]
  rw [hz]
  simp only [if_true]
  rw [hoff]
  unfold ZONE_SETPOINT_ADDR_OFFSET ZONE_TEMP_ADDR_OFFSET ZONE_RH_ADDR_OFFSET
  simp only [show (10 : ℕ) ≠ 0 by omega, show (10 : ℕ) ≠ 1 by omega,
    show (10 : ℕ) ≠ 2 by omega, if_false, if_pos rfl]
  simp

/-- Reads of zero or more than one register bypass validation entirely
(`modbus_manager.py` lines 280-281: `if not values or len(values) > 1: return
values`). -/
theorem validate_passthrough (gw : GatewayState) (address : ℕ) (values : List ℕ)
    (h : values.length ≠ 1) :
    ModbusManager._validate_and_filter_read_data gw address values = values := by
  match values with
  | [] => rfl
  | [x] => simp at h
  | x :: y :: rest => rfl

/-- A healthy database holding valid global mode 3 (address 1) and global
state 1 (address 2), zeros elsewhere. -/
def testDbModes : DatabaseManager :=
  { db := fun a => if a = 1 then some 3 else if a = 2 then some 1 else some 0
    connection_healthy := true
    enable_fallback := true
    fallback := fun _ => none
    fallback_dirty := false }

/-- A manager over `testDbModes` with an initialized context, fresh breaker. -/
def testManagerModes : ModbusManager :=
  { slave_id := 240
    gw := { db_manager := testDbModes, mem_block := fun _ => 0, context_initialized := true }
    circuit_breaker := { config := {} } }

/-- C3 as stated is false for multi-register reads: a successful count=2 read
at address 1 returning [0, 0] hits the global mode (address 1) and global
state (address 2) registers with values that are invalid by the claim's own
rules, yet the fresh values are returned unvalidated — not the persisted
[3, 1] — and, with `update_db` set, they overwrite the cached values. -/
theorem C3_counterexample :
    readInvalid 1 0 = true ∧
    readInvalid 2 0 = true ∧
    testManagerModes.gw.db_manager.db 1 = some 3 ∧
    testManagerModes.gw.db_manager.db 2 = some 1 ∧
    (testManagerModes.read_registers 0 1 2 true (.ok [0, 0])).2 = .ok [0, 0] ∧
    ¬ ((testManagerModes.read_registers 0 1 2 true (.ok [0, 0])).2 = .ok [3, 1]) ∧
    (testManagerModes.read_registers 0 1 2 true (.ok [0, 0])).1.gw.db_manager.db 1
      = some 0 ∧
    (testManagerModes.read_registers 0 1 2 true (.ok [0, 0])).1.gw.db_manager.db 2
      = some 0 :=
  ⟨by decide, by decide, rfl, rfl, rfl,
   by intro h; exact absurd (Except.ok.inj h) (by decide), rfl, rfl⟩

/-- C3 (amended): domain validation with cached substitution applies only to
successful single-register reads; there it is applied per address class
exactly as specified (global mode/state nonzero; zone state nonzero; zone
setpoint decoding into [5, 40]; zone temperature decoding nonzero; zone
humidity nonzero), and when validation flags the fresh value the call returns
— and, when `update_db` is set, persists — the last persisted value from the
register store instead of the freshly read one.  A successful read of zero or
more than one register bypasses validation entirely: the fresh values are
returned and, when `update_db` is set, persisted as-is. -/
theorem C3_amended_read_validation (m : ModbusManager) (now : ℚ) (address v : ℕ)
    (update_db : Bool)
    (hno : m.circuit_breaker.state ≠ .opened)
    (hctx : m.gw.context_initialized = true)
    (hdb : m.gw.db_manager.connection_healthy = true)
    (_hv : v ≤ 65535) :
    ((address = GLOBAL_OP_MODE_ADDR ∨ address = GLOBAL_OP_STATE_ADDR) →
      (readInvalid address v = true ↔ v = 0)) ∧
    (ModbusManager._is_zone_register address = true →
      (address % ZONE_ID_MULTIPLIER = 0 → (readInvalid address v = true ↔ v = 0)) ∧
      (address % ZONE_ID_MULTIPLIER = ZONE_SETPOINT_ADDR_OFFSET →
        ∀ u, unpack_dpt9001 v = some u →
          (readInvalid address v = true ↔ ¬ (5 ≤ u ∧ u ≤ 40))) ∧
      (address % ZONE_ID_MULTIPLIER = ZONE_TEMP_ADDR_OFFSET →
        ∀ u, unpack_dpt9001 v = some u → (readInvalid address v = true ↔ u = 0)) ∧
      (address % ZONE_ID_MULTIPLIER = ZONE_RH_ADDR_OFFSET →
        (readInvalid address v = true ↔ v = 0))) ∧
    ((m.read_registers now address 1 update_db (.ok [v])).2
      = .ok [if readInvalid address v then (m.gw.db_manager.db address).getD 0 else v]) ∧
    (update_db = true →
      (m.read_registers now address 1 update_db (.ok [v])).1.gw.db_manager.db address
        = some (if readInvalid address v then (m.gw.db_manager.db address).getD 0 else v)) ∧
    (∀ (count : ℕ) (values : List ℕ), values.length ≠ 1 →
      (m.read_registers now address count update_db (.ok values)).2 = .ok values ∧
      (update_db = true → ∀ i, i < values.length →
        (m.read_registers now address count update_db (.ok values)).1.gw.db_manager.db
          (address + i) = some (values.getD i 0))) := by
  have hvalidated : ModbusManager._validate_and_filter_read_data m.gw address [v]
      = [if readInvalid address v then (m.gw.db_manager.db address).getD 0 else v] := by
    rw [validate_single m.gw address v hdb]
    by_cases hinv : readInvalid address v <;> simp [hinv]
  refine ⟨fun h => readInvalid_global address v h,
    fun hz => ⟨fun hoff => readInvalid_zone_state address v hz hoff,
      fun hoff u hu => readInvalid_zone_setpoint address v hz hoff u hu,
      fun hoff u hu => readInvalid_zone_temperature address v hz hoff u hu,
      fun hoff => readInvalid_zone_humidity address v hz hoff⟩, ?_, ?_, ?_⟩
  · rw [read_registers_bus_ok m now address 1 update_db [v] hno hctx hdb]
    rw [hvalidated]
  · intro hu
    rw [read_registers_bus_ok m now address 1 update_db [v] hno hctx hdb]
    dsimp only
    rw [hu, if_pos rfl, hvalidated]
    dsimp only
    simp [setRange]
  · intro count values hlen
    rw [read_registers_bus_ok m now address count update_db values hno hctx hdb]
    rw [validate_passthrough m.gw address values hlen]
    refine ⟨rfl, ?_⟩
    intro hu i hi
    dsimp only
    rw [hu, if_pos rfl]
    dsimp only
    exact setRange_lookup values m.gw.db_manager.db address i hi

/-- Witness for `C3_amended_read_validation`: reading the zone-1/zone-1
setpoint register 1301 with fresh value 0 on the concrete test manager. -/
theorem C3_amended_read_validation_witness :
    (testManager.circuit_breaker.state ≠ .opened ∧
     testManager.gw.context_initialized = true ∧
     testManager.gw.db_manager.connection_healthy = true ∧ (0 : ℕ) ≤ 65535) ∧
    (((1301 = GLOBAL_OP_MODE_ADDR ∨ 1301 = GLOBAL_OP_STATE_ADDR) →
      (readInvalid 1301 0 = true ↔ (0 : ℕ) = 0)) ∧
    (ModbusManager._is_zone_register 1301 = true →
      (1301 % ZONE_ID_MULTIPLIER = 0 → (readInvalid 1301 0 = true ↔ (0 : ℕ) = 0)) ∧
      (1301 % ZONE_ID_MULTIPLIER = ZONE_SETPOINT_ADDR_OFFSET →
        ∀ u, unpack_dpt9001 0 = some u →
          (readInvalid 1301 0 = true ↔ ¬ (5 ≤ u ∧ u ≤ 40))) ∧
      (1301 % ZONE_ID_MULTIPLIER = ZONE_TEMP_ADDR_OFFSET →
        ∀ u, unpack_dpt9001 0 = some u → (readInvalid 1301 0 = true ↔ u = 0)) ∧
      (1301 % ZONE_ID_MULTIPLIER = ZONE_RH_ADDR_OFFSET →
        (readInvalid 1301 0 = true ↔ (0 : ℕ) = 0))) ∧
    ((testManager.read_registers 0 1301 1 true (.ok [0])).2
      = .ok [if readInvalid 1301 0 then (testManager.gw.db_manager.db 1301).getD 0 else 0]) ∧
    (true = true →
      (testManager.read_registers 0 1301 1 true (.ok [0])).1.gw.db_manager.db 1301
        = some (if readInvalid 1301 0 then (testManager.gw.db_manager.db 1301).getD 0 else 0)) ∧
    (∀ (count : ℕ) (values : List ℕ), values.length ≠ 1 →
      (testManager.read_registers 0 1301 count true (.ok values)).2 = .ok values ∧
      (true = true → ∀ i, i < values.length →
        (testManager.read_registers 0 1301 count true (.ok values)).1.gw.db_manager.db
          (1301 + i) = some (values.getD i 0)))) :=
  ⟨⟨by decide, rfl, rfl, by norm_num⟩,
    C3_amended_read_validation testManager 0 1301 0 true (by decide) rfl rfl (by norm_num)⟩

/-- Constructor `ModbusManager.__init__` plus `_initialize_context`: a fresh
breaker with the default configuration and a `ThreadSafeDataBlock` whose
initial in-memory values are loaded from the database
(`_load_initial_values`).  The pymodbus contexts and the zeroed dummy block
for the secondary slave carry no register semantics and are not modelled. -/
def mkModbusManager (slave_id : ℕ) (dbm : DatabaseManager) : ModbusManager :=
  { slave_id := slave_id
    gw := { db_manager := dbm
            mem_block := fun a => (dbm.db a).getD 0
            context_initialized := true }
    circuit_breaker := { config := {} } }

/-- Function `get_modbus_manager` (`modbus_manager.py` lines 445-462): the
module-level singleton is threaded explicitly (`current` in, updated singleton
out); `.error ()` is the raised `ValueError`, which leaves the singleton
unset. -/
def get_modbus_manager (current : Option ModbusManager) (slave_id : Option ℕ)
    (dbm : DatabaseManager) : Except Unit (ModbusManager × Option ModbusManager) :=
  match current with
  | some m => .ok (m, some m)
  | none =>
    match slave_id with
    | none => .error ()
    | some sid =>
      if sid = 240 ∨ sid = 241 then
        let m := mkModbusManager sid dbm
        .ok (m, some m)
      else .error ()

/-- C10: the first call to `get_modbus_manager` (no singleton yet) must supply
slave id 240 or 241; a missing or any other id raises `ValueError` and no
manager singleton is created, while 240/241 create the singleton with that
slave id. -/
theorem C10_manager_singleton_slave_id (slave_id : Option ℕ) (dbm : DatabaseManager) :
    ((∀ n, slave_id = some n → n ≠ 240 ∧ n ≠ 241) →
      get_modbus_manager none slave_id dbm = .error ()) ∧
    (∀ n, slave_id = some n → n = 240 ∨ n = 241 →
      get_modbus_manager none slave_id dbm
        = .ok (mkModbusManager n dbm, some (mkModbusManager n dbm)) ∧
      (mkModbusManager n dbm).slave_id = n) := by
  constructor
  · intro hbad
    unfold get_modbus_manager
    match slave_id with
    | none => rfl
    | some sid =>
      obtain ⟨h1, h2⟩ := hbad sid rfl
      dsimp only
      rw [if_neg (by tauto)]
  · intro n hn hok
    subst hn
    unfold get_modbus_manager
    dsimp only
    rw [if_pos hok]
    exact ⟨rfl, rfl⟩

/-- Witness for `C10_manager_singleton_slave_id`: slave id 7 is rejected with
no singleton created, and slave id 240 creates the manager. -/
theorem C10_manager_singleton_slave_id_witness :
    ((∀ n, (some 7 : Option ℕ) = some n → n ≠ 240 ∧ n ≠ 241) →
      get_modbus_manager none (some 7) testDb = .error ()) ∧
    (∀ n, (some 7 : Option ℕ) = some n → n = 240 ∨ n = 241 →
      get_modbus_manager none (some 7) testDb
        = .ok (mkModbusManager n testDb, some (mkModbusManager n testDb)) ∧
      (mkModbusManager n testDb).slave_id = n) ∧
    ((∀ n, (some 240 : Option ℕ) = some n → n ≠ 240 ∧ n ≠ 241) →
      get_modbus_manager none (some 240) testDb = .error ()) ∧
    (∀ n, (some 240 : Option ℕ) = some n → n = 240 ∨ n = 241 →
      get_modbus_manager none (some 240) testDb
        = .ok (mkModbusManager n testDb, some (mkModbusManager n testDb)) ∧
      (mkModbusManager n testDb).slave_id = n) :=
  ⟨(C10_manager_singleton_slave_id (some 7) testDb).1,
   (C10_manager_singleton_slave_id (some 7) testDb).2,
   (C10_manager_singleton_slave_id (some 240) testDb).1,
   (C10_manager_singleton_slave_id (some 240) testDb).2⟩

/-! ## Write-through client, from `src/modbus_client.py` -/

/-- The parts of `config/gateway.json` that `NeasmartModbusClient` reads:
`gateway.enabled`, `fallback.disable_write_through_on_error` and
`fallback.max_consecutive_errors`. -/
structure GatewayClientConfig where
  gateway_enabled : Bool := true
  disable_write_through_on_error : Bool := false
  max_consecutive_errors : ℕ := 3
deriving DecidableEq

/-- State of class `NeasmartModbusClient` (`__init__`, lines 30-50): host,
port and slave id do not influence the modelled behaviour and are omitted. -/
structure NeasmartModbusClient where
  config : GatewayClientConfig
  connected : Bool := false
  consecutive_errors : ℕ := 0
  last_error_time : ℚ := 0
deriving DecidableEq

/-- Method `NeasmartModbusClient.is_gateway_enabled` (lines 65-77). -/
def NeasmartModbusClient.is_gateway_enabled (c : NeasmartModbusClient) : Bool :=
  if ¬ c.config.gateway_enabled then false
  else if c.config.disable_write_through_on_error ∧
      c.consecutive_errors ≥ c.config.max_consecutive_errors then false
  else true

/-- Method `NeasmartModbusClient._record_error` (lines 79-83), with the event
loop clock passed in as `now`. -/
def NeasmartModbusClient._record_error (c : NeasmartModbusClient) (now : ℚ) :
    NeasmartModbusClient :=
  { c with consecutive_errors := c.consecutive_errors + 1, last_error_time := now }

/-- Method `NeasmartModbusClient._record_success` (lines 85-89). -/
def NeasmartModbusClient._record_success (c : NeasmartModbusClient) : NeasmartModbusClient :=
  if c.consecutive_errors > 0 then { c with consecutive_errors := 0 } else c

/-- Result of a mirror write, as the `(bool, message)` pairs of the source:
`disabledFailure` is the immediate "write-through is disabled" return,
`connectFailure` the "Failed to connect" return, `writeFailure i` the error
return issued from attempt `i` (0-based), and `allFailed` the fall-through
return after the loop (reachable only with `max_retries = 0`). -/
inductive MirrorWriteResult where
  | success
  | disabledFailure
  | connectFailure
  | writeFailure (attempt : ℕ)
  | allFailed
deriving DecidableEq

/-- The retry loop of `write_zone_setpoint` (lines 168-224): `attempts i` says
whether write attempt `i` succeeds; a `response.isError()` result and the two
exception handlers run the identical retry/return logic, so a single failure
outcome models all three. -/
def writeAttemptLoop (attempts : ℕ → Bool) : ℕ → ℕ → MirrorWriteResult
  | _, 0 => .allFailed
  | attempt, remaining + 1 =>
    if attempts attempt then .success
    else if remaining = 0 then .writeFailure attempt
    else writeAttemptLoop attempts (attempt + 1) remaining

/-- Method `NeasmartModbusClient.write_zone_setpoint` (lines 136-224).  The
register address computed from `(base_id, zone_id)` only parameterizes the
physical write, which the environment's `attempts` function models, so it does
not appear in the state.  The result also carries the number of connection
attempts made (0 or 1), to state "no connection attempt" claims. -/
def NeasmartModbusClient.write_zone_setpoint (c : NeasmartModbusClient)
    (connectOk : Bool) (attempts : ℕ → Bool) (now : ℚ) (max_retries : ℕ) :
    NeasmartModbusClient × MirrorWriteResult × ℕ :=
  if ¬ c.is_gateway_enabled then (c, .disabledFailure, 0)
  else
    let runLoop : NeasmartModbusClient → NeasmartModbusClient × MirrorWriteResult :=
      fun c2 =>
        match writeAttemptLoop attempts 0 max_retries with
        | .success => (c2._record_success, .success)
        | .writeFailure i => (c2._record_error now, .writeFailure i)
        | .allFailed => (c2._record_error now, .allFailed)
        | r => (c2, r)
    if ¬ c.connected then
      if connectOk then
        let r := runLoop { c with connected := true }
        (r.1, r.2, 1)
      else (c._record_error now, .connectFailure, 1)
    else
      let r := runLoop c
      (r.1, r.2, 0)

/-- Method `NeasmartModbusClient.write_zone_state` (lines 226-272): a single
unconditional attempt — no `is_gateway_enabled` check, no retries, and no
`_record_error`/`_record_success` accounting, not even on connection failure. -/
def NeasmartModbusClient.write_zone_state (c : NeasmartModbusClient)
    (connectOk : Bool) (attemptOk : Bool) :
    NeasmartModbusClient × MirrorWriteResult × ℕ :=
  if ¬ c.connected then
    if connectOk then
      let c2 := { c with connected := true }
      (c2, if attemptOk then .success else .writeFailure 0, 1)
    else (c, .connectFailure, 1)
  else
    (c, if attemptOk then .success else .writeFailure 0, 0)

theorem writeAttemptLoop_all_fail :
    ∀ (n a : ℕ) (attempts : ℕ → Bool), 0 < n → (∀ i, i < n → attempts (a + i) = false) →
      writeAttemptLoop attempts a n = .writeFailure (a + (n - 1)) := by
  intro n
  induction n with
  | zero => intro a attempts h _; omega
  | succ k ih =>
    intro a attempts _ hfail
    have h0 : attempts a = false := by
      have h := hfail 0 (by omega)
      simpa using h
    cases k with
    | zero => simp [writeAttemptLoop, h0]
    | succ j =>
      have hrec := ih (a + 1) attempts (by omega) (fun i hi => by
        have h := hfail (i + 1) (by omega)
        rw [show a + 1 + i = a + (i + 1) by omega]
        exact h)
      rw [writeAttemptLoop]
      simp only [h0, Bool.false_eq_true, if_false]
      rw [if_neg (by omega : ¬ j + 1 = 0), hrec]
      congr 1
      omega

theorem writeAttemptLoop_first_success :
    ∀ (n a i : ℕ) (attempts : ℕ → Bool), i < n → attempts (a + i) = true →
      (∀ j, j < i → attempts (a + j) = false) →
      writeAttemptLoop attempts a n = .success := by
  intro n
  induction n with
  | zero => intro a i attempts hi _ _; omega
  | succ k ih =>
    intro a i attempts hi hsucc hprev
    cases i with
    | zero =>
      have h0 : attempts a = true := by simpa using hsucc
      simp [writeAttemptLoop, h0]
    | succ i' =>
      have h0 : attempts a = false := by
        have h := hprev 0 (by omega)
        simpa using h
      simp only [writeAttemptLoop, h0, Bool.false_eq_true, if_false]
      rw [if_neg (by omega : ¬ k = 0)]
      exact ih (a + 1) i' attempts (by omega)
        (by rw [show a + 1 + i' = a + (i' + 1) by omega]; exact hsucc)
        (fun j hj => by
          rw [show a + 1 + j = a + (j + 1) by omega]
          exact hprev (j + 1) (by omega))

/-- C8 (amended): the disabled-check, retry accounting and error bookkeeping
hold for setpoint mirror writes (`write_zone_setpoint`); zone-state mirror
writes (`write_zone_state`) perform a single unconditional attempt with no
disabled-check and no error accounting. -/
theorem C8_amended_write_through (c : NeasmartModbusClient) (connectOk : Bool)
    (attempts : ℕ → Bool) (now : ℚ) (max_retries : ℕ) :
    (c.is_gateway_enabled = false →
      c.write_zone_setpoint connectOk attempts now max_retries = (c, .disabledFailure, 0)) ∧
    (c.is_gateway_enabled = true → c.connected = true →
      ∀ i, i < max_retries → attempts i = true → (∀ j, j < i → attempts j = false) →
        (c.write_zone_setpoint connectOk attempts now max_retries).2 = (.success, 0) ∧
        (c.write_zone_setpoint connectOk attempts now max_retries).1.consecutive_errors
          = 0) ∧
    (c.is_gateway_enabled = true → c.connected = true → 0 < max_retries →
      (∀ i, i < max_retries → attempts i = false) →
        (c.write_zone_setpoint connectOk attempts now max_retries).2
          = (.writeFailure (max_retries - 1), 0) ∧
        (c.write_zone_setpoint connectOk attempts now max_retries).1.consecutive_errors
          = c.consecutive_errors + 1 ∧
        (c.write_zone_setpoint connectOk attempts now max_retries).1.last_error_time
          = now) ∧
    (c.connected = true →
      ∀ attemptOk, c.write_zone_state connectOk attemptOk
        = (c, if attemptOk then .success else .writeFailure 0, 0)) := by
  refine ⟨?_, ?_, ?_, ?_⟩
  · intro hdis
    unfold NeasmartModbusClient.write_zone_setpoint
    simp [hdis]
  · intro hen hconn i hi hsucc hprev
    have hloop : writeAttemptLoop attempts 0 max_retries = .success := by
      apply writeAttemptLoop_first_success max_retries 0 i attempts hi
      · simpa using hsucc
      · intro j hj
        have h := hprev j hj
        simpa using h
    unfold NeasmartModbusClient.write_zone_setpoint
    simp only [hen, hconn, not_true_eq_false, if_false, Bool.true_eq_false]
    rw [hloop]
    refine ⟨rfl, ?_⟩
    unfold NeasmartModbusClient._record_success
    by_cases hce : c.consecutive_errors > 0
    · simp [hce]
    · simp only [hce, if_false]
      omega
  · intro hen hconn hpos hfail
    have hloop : writeAttemptLoop attempts 0 max_retries
        = .writeFailure (max_retries - 1) := by
      have h := writeAttemptLoop_all_fail max_retries 0 attempts hpos (fun i hi => by
        have h2 := hfail i hi
        simpa using h2)
      simpa using h
    unfold NeasmartModbusClient.write_zone_setpoint
    simp only [hen, hconn, not_true_eq_false, if_false, Bool.true_eq_false]
    rw [hloop]
    exact ⟨rfl, rfl, rfl⟩
  · intro hconn attemptOk
    unfold NeasmartModbusClient.write_zone_state
    simp [hconn]

/-- A client whose configuration disables write-through, not yet connected. -/
def testClientDisabled : NeasmartModbusClient :=
  { config := { gateway_enabled := false } }

/-- C8 as stated is false for zone-state mirror writes: on a disabled client,
`write_zone_state` does not fail immediately without a connection attempt — it
connects (one connection attempt) and the write goes through. -/
theorem C8_counterexample :
    testClientDisabled.is_gateway_enabled = false ∧
    (testClientDisabled.write_zone_state true true).2.1 = .success ∧
    (testClientDisabled.write_zone_state true true).2.2 = 1 ∧
    ¬ ((testClientDisabled.write_zone_state true true).2.2 = 0) :=
  ⟨rfl, rfl, rfl, by decide⟩

/-- Witness for `C8_amended_write_through`: a connected, enabled client with
default configuration; three attempts where the second succeeds. -/
theorem C8_amended_write_through_witness :
    (({ config := {}, connected := true } : NeasmartModbusClient).is_gateway_enabled
      = true ∧
     ({ config := {}, connected := true } : NeasmartModbusClient).connected = true ∧
     1 < 3 ∧ (fun i => decide (i = 1)) 1 = true ∧
     (∀ j, j < 1 → (fun i => decide (i = 1)) j = false)) ∧
    ((({ config := {}, connected := true } : NeasmartModbusClient).write_zone_setpoint
        true (fun i => decide (i = 1)) 0 3).2 = (.success, 0) ∧
     (({ config := {}, connected := true } : NeasmartModbusClient).write_zone_setpoint
        true (fun i => decide (i = 1)) 0 3).1.consecutive_errors = 0) :=
  ⟨⟨rfl, rfl, by omega, by decide, fun j hj => by
      interval_cases j
      decide⟩,
   (C8_amended_write_through { config := {}, connected := true } true
      (fun i => decide (i = 1)) 0 3).2.1 rfl rfl 1 (by omega) (by decide)
      (fun j hj => by interval_cases j; decide)⟩

/-! ## Zone address mapping, from `src/api/zones.py` -/

/-- Function `calculate_zone_address` (`api/zones.py` lines 62-70). -/
def calculate_zone_address (base_id zone_id : ℕ) : ℕ :=
  (base_id - 1) * ZONE_BASE_ID_MULTIPLIER + zone_id * ZONE_ID_MULTIPLIER

/-- C9: for every base in [1, 4] and zone in [1, 12] the computed zone base
register is (base_id - 1)·1200 + zone_id·100; in particular (1, 1) maps to 100
and (4, 12) to 4800. -/
theorem C9_zone_address (base_id zone_id : ℕ)
    (_hb : 1 ≤ base_id ∧ base_id ≤ 4) (_hz : 1 ≤ zone_id ∧ zone_id ≤ 12) :
    calculate_zone_address base_id zone_id = (base_id - 1) * 1200 + zone_id * 100 ∧
    calculate_zone_address 1 1 = 100 ∧
    calculate_zone_address 4 12 = 4800 := by
  unfold calculate_zone_address ZONE_BASE_ID_MULTIPLIER ZONE_ID_MULTIPLIER
  exact ⟨rfl, rfl, rfl⟩

/-- Witness for `C9_zone_address` at base 2, zone 3. -/
theorem C9_zone_address_witness :
    ((1 ≤ 2 ∧ 2 ≤ 4) ∧ (1 ≤ 3 ∧ 3 ≤ 12)) ∧
    (calculate_zone_address 2 3 = (2 - 1) * 1200 + 3 * 100 ∧
     calculate_zone_address 1 1 = 100 ∧
     calculate_zone_address 4 12 = 4800) :=
  ⟨⟨⟨by omega, by omega⟩, ⟨by omega, by omega⟩⟩,
    C9_zone_address 2 3 ⟨by omega, by omega⟩ ⟨by omega, by omega⟩⟩
